import Mathlib

/-!
Dialog widget of go-telegram-bot-ui

A shallow embedding of `dialog/node.go` and `dialog/dialog.go`.

* Go strings are lists of characters (`Str`).  The only separator the code
  splits on is the ASCII character `_`.
* A `bot.HandlerFunc` value is an identifier; `none` is the nil function.
* The bot API is not part of the package.  Its answers for one run are the
  fields of `Bot`, and every call the package makes on it, on the error sink
  or on a button handler is recorded in order in `Run.calls`.
* A Go runtime failure (index out of range, call of a nil function, read
  through a nil pointer) ends the run and is recorded in `Run.failure`.
-/

set_option autoImplicit false

namespace DialogUI

/-- Go `string`. -/
abbrev Str := List Char

/-- A value of type `bot.HandlerFunc`, identified by a number. -/
abbrev HandlerFunc := Nat

/-- A value of type `OnErrorHandler`, identified by a number. -/
abbrev OnErrorHandler := Nat

/-! ## `strings` functions used by the package -/

/-- Go `strings.HasPrefix`: `len(s) >= len(p) && s[:len(p)] == p`. -/
def HasPrefix (s p : Str) : Bool :=
  decide (p.length ≤ s.length) && decide (s.take p.length = p)

/-- Go `strings.TrimPrefix`. -/
def TrimPrefix (s p : Str) : Str :=
  if HasPrefix s p then s.drop p.length else s

/-- Go `strings.CutPrefix`: the rest and `true` when `s` begins with `p`,
otherwise `s` and `false`. -/
def CutPrefix (s p : Str) : Str × Bool :=
  if HasPrefix s p then (s.drop p.length, true) else (s, false)

/-- Go `strings.Split(s, sep)` for a separator of one ASCII character: the
pieces of `s` between the occurrences of `sep`, one more piece than there are
occurrences. -/
def Split (sep : Char) : Str → List Str
  | [] => [[]]
  | c :: cs =>
    if c = sep then [] :: Split sep cs
    else
      match Split sep cs with
      | [] => [[c]]
      | piece :: rest => (c :: piece) :: rest

/-! ## `node.go` -/

/-- The struct `Button`. -/
structure Button where
  Text : Str
  NodeID : Str
  URL : Str
  CallbackHandler : Option HandlerFunc
  deriving DecidableEq, Repr

/-- The struct `Node`. -/
structure Node where
  ID : Str
  Text : Str
  Keyboard : List (List Button)
  deriving DecidableEq, Repr

/-- The fields of `models.InlineKeyboardButton` that `buildKB` can set; the
others keep their zero value. -/
structure InlineKeyboardButton where
  Text : Str
  URL : Str
  CallbackData : Str
  deriving DecidableEq, Repr

/-- The struct `models.InlineKeyboardMarkup`. -/
structure InlineKeyboardMarkup where
  InlineKeyboard : List (List InlineKeyboardButton)
  deriving DecidableEq, Repr

/-- The body of the inner loop of `buildKB`: the transport button made for one
button of the node. -/
def buildButton (pfx nodePrefix callbackPrefix parentNodeID : Str) (btn : Button) :
    InlineKeyboardButton :=
  let b : InlineKeyboardButton := { Text := btn.Text, URL := [], CallbackData := [] }
  if btn.URL ≠ [] then
    { b with URL := btn.URL }
  else if btn.CallbackHandler ≠ none then
    { b with CallbackData := pfx ++ callbackPrefix ++ parentNodeID ++ ['_'] ++ btn.Text }
  else
    { b with CallbackData := pfx ++ nodePrefix ++ btn.NodeID }

/-- The method `Node.buildKB`; `none` is the nil `models.ReplyMarkup`. -/
def Node.buildKB (n : Node) (pfx nodePrefix callbackPrefix parentNodeID : Str) :
    Option InlineKeyboardMarkup :=
  if n.Keyboard.length = 0 then none
  else
    some { InlineKeyboard :=
      n.Keyboard.map fun row => row.map (buildButton pfx nodePrefix callbackPrefix parentNodeID) }

/-! ## `dialog.go` -/

/-- The struct `Dialog`. -/
structure Dialog where
  data : List Str
  pfx : Str
  nodePrefix : Str
  callbackPrefix : Str
  onError : OnErrorHandler
  nodes : List Node
  inline : Bool
  callbackHandlerID : Str
  deriving DecidableEq, Repr

/-- The identifier of `defaultOnError`. -/
def defaultOnError : OnErrorHandler := 0

/-- The constructor `New`.  The three results of `bot.RandomString(16)` are the
arguments `r1`, `r2`, `r3`, in the order of the calls; an option is a function
on the dialog. -/
def New (nodes : List Node) (r1 r2 r3 : Str) (opts : List (Dialog → Dialog)) : Dialog :=
  let p : Dialog :=
    { data := []
      pfx := r1
      callbackPrefix := r2
      nodePrefix := r3
      onError := defaultOnError
      nodes := nodes
      inline := false
      callbackHandlerID := [] }
  opts.foldl (fun d opt => opt d) p

/-- The loop of `findNode` over the node list. -/
def findNodeIn (id : Str) : List Node → Node × Bool
  | [] => ({ ID := [], Text := [], Keyboard := [] }, false)
  | node :: rest => if node.ID = id then (node, true) else findNodeIn id rest

/-- The method `Dialog.findNode`. -/
def Dialog.findNode (d : Dialog) (id : Str) : Node × Bool :=
  findNodeIn id d.nodes

/-- The inner loop of `findButton` over one row: the first button of the row
with the text, if any. -/
def findButtonInRow (text : Str) : List Button → Option Button
  | [] => none
  | btn :: rest => if btn.Text = text then some btn else findButtonInRow text rest

/-- The outer loop of `findButton` over the rows. -/
def findButtonIn (text : Str) : List (List Button) → Button × Bool
  | [] => ({ Text := [], NodeID := [], URL := [], CallbackHandler := none }, false)
  | row :: rows =>
    match findButtonInRow text row with
    | some btn => (btn, true)
    | none => findButtonIn text rows

/-- The method `Node.findButton`. -/
def Node.findButton (node : Node) (text : Str) : Button × Bool :=
  findButtonIn text node.Keyboard

/-- The part of `models.Message` that `callback` reads: `Chat.ID` and `ID` of
the message that carried the button. -/
structure CallbackMessage where
  ChatID : Int
  ID : Int
  deriving DecidableEq, Repr

/-- The part of `models.Update` that `callback` reads: the callback query's
`ID` and `Data`, and the pointer `update.CallbackQuery.Message.Message`, which
is nil (`none`) when the message that carried the button is inaccessible. -/
structure Update where
  CallbackQueryID : Str
  Data : Str
  Message : Option CallbackMessage
  deriving DecidableEq, Repr

/-- What the bot API answers during one run of `callback`. -/
structure Bot where
  /-- The boolean returned by `AnswerCallbackQuery`. -/
  answerOk : Bool
  /-- The error returned by `AnswerCallbackQuery`, `none` for nil. -/
  answerErr : Option Str
  /-- The error returned by `EditMessageText`. -/
  editErr : Option Str
  /-- The error returned by `SendMessage`. -/
  sendErr : Option Str
  deriving DecidableEq, Repr

/-- The errors handed to `onError`. -/
inductive DialogError where
  /-- An error returned by the bot API. -/
  | api (msg : Str)
  /-- The error "failed to answer callback query". -/
  | answerFailed
  /-- The error "failed to find button with text %s". -/
  | buttonNotFound (text : Str)
  /-- The error "failed to find node with id %s". -/
  | nodeNotFound (id : Str)
  deriving DecidableEq, Repr

/-- One observable call made by `callback`.  Messages are always sent with
`ParseMode: models.ParseModeMarkdown`. -/
inductive Call where
  | AnswerCallbackQuery (callbackQueryID : Str)
  | onError (err : DialogError)
  | CallbackHandler (h : HandlerFunc) (update : Update)
  | EditMessageText (chatID messageID : Int) (text : Str)
      (replyMarkup : Option InlineKeyboardMarkup)
  | SendMessage (chatID : Int) (text : Str) (replyMarkup : Option InlineKeyboardMarkup)
  deriving DecidableEq, Repr

/-- A Go runtime failure. -/
inductive Failure where
  /-- Taking `btnData[1]` of a slice of length one. -/
  | indexOutOfRange
  /-- Calling a nil `CallbackHandler`. -/
  | nilHandler
  /-- Reading `Chat.ID` or `ID` through a nil `update.CallbackQuery.Message.Message`. -/
  | nilMessage
  deriving DecidableEq, Repr

/-- The result of one run of `callback`: the calls made, in order, and the
runtime failure that ended the run, if any. -/
structure Run where
  calls : List Call
  failure : Option Failure
  deriving DecidableEq, Repr

/-- Lines 75 to 81 of `callback`: the acknowledgment and the reports of its
failure. -/
def answer (b : Bot) (update : Update) : List Call :=
  [Call.AnswerCallbackQuery update.CallbackQueryID]
    ++ (match b.answerErr with
        | some e => [Call.onError (DialogError.api e)]
        | none => [])
    ++ (if !b.answerOk then [Call.onError DialogError.answerFailed] else [])

/-- Lines 85 and 86 of `callback`: the parent node ID and the button text taken
from the rest of a custom-action payload; `none` when `btnData[1]` is out of
range. -/
def decodeCustom (data : Str) : Option (Str × Str) :=
  let btnData := Split '_' data
  match btnData[0]?, btnData[1]? with
  | some parentNodeID, some btnText => some (parentNodeID, btnText)
  | _, _ => none

/-- Lines 85 to 94 of `callback`: the branch taken when the payload begins with
`d.prefix + d.callbackPrefix`. -/
def customBranch (d : Dialog) (update : Update) (data : Str) : Run :=
  match decodeCustom data with
  | none => { calls := [], failure := some Failure.indexOutOfRange }
  | some (parentNodeID, btnText) =>
    let node := (d.findNode parentNodeID).1
    let (btn, ok) := node.findButton btnText
    if !ok then
      { calls := [Call.onError (DialogError.buttonNotFound btnText)], failure := none }
    else
      match btn.CallbackHandler with
      | none => { calls := [], failure := some Failure.nilHandler }
      | some h => { calls := [Call.CallbackHandler h update], failure := none }

/-- Line 97 of `callback`: the node ID looked up on the navigation path. -/
def decodeNav (d : Dialog) (payload : Str) : Str :=
  TrimPrefix payload d.pfx

/-- Lines 104 to 126 of `callback`: the edit or the send of a node that was
found, and the report of its failure.  The parameters of either call read the
chat ID through `update.CallbackQuery.Message.Message`, so a nil pointer ends
the run before the call is made. -/
def renderNode (d : Dialog) (b : Bot) (update : Update) (node : Node) : Run :=
  match update.Message with
  | none => { calls := [], failure := some Failure.nilMessage }
  | some message =>
    if d.inline then
      { calls :=
          [Call.EditMessageText message.ChatID message.ID node.Text
              (node.buildKB d.pfx d.nodePrefix d.callbackPrefix node.ID)]
            ++ (match b.editErr with
                | some e => [Call.onError (DialogError.api e)]
                | none => [])
        failure := none }
    else
      { calls :=
          [Call.SendMessage message.ChatID node.Text
              (node.buildKB d.pfx d.nodePrefix d.callbackPrefix node.ID)]
            ++ (match b.sendErr with
                | some e => [Call.onError (DialogError.api e)]
                | none => [])
        failure := none }

/-- Lines 97 to 126 of `callback`: the branch taken otherwise. -/
def navBranch (d : Dialog) (b : Bot) (update : Update) : Run :=
  let nodeID := decodeNav d update.Data
  let (node, ok) := d.findNode nodeID
  if !ok then
    { calls := [Call.onError (DialogError.nodeNotFound nodeID)], failure := none }
  else
    renderNode d b update node

/-- The method `Dialog.callback`. -/
def Dialog.callback (d : Dialog) (b : Bot) (update : Update) : Run :=
  let (data, isCustomCallback) := CutPrefix update.Data (d.pfx ++ d.callbackPrefix)
  let rest := if isCustomCallback then customBranch d update data else navBranch d b update
  { calls := answer b update ++ rest.calls, failure := rest.failure }

/-! ## `Show` -/

/-- The `*models.Message` that `SendMessage` returns, by its message ID and
text. -/
structure Message where
  ID : Int
  Text : Str
  deriving DecidableEq, Repr

/-- What the bot API answers during one run of `Show`. -/
structure ShowBot where
  /-- The handler ID returned by `RegisterHandler`. -/
  handlerID : Str
  /-- The message returned by `SendMessage`, `none` for nil. -/
  sendMessage : Option Message
  /-- The error returned by `SendMessage`, `none` for nil. -/
  sendErr : Option Str
  deriving DecidableEq, Repr

/-- One call made by `Show` on the bot API.  The handler is always registered
with `bot.HandlerTypeCallbackQueryData`, `bot.MatchTypePrefix` and
`d.callback`; messages are always sent with `models.ParseModeMarkdown`. -/
inductive ShowCall where
  | RegisterHandler (pattern : Str)
  | SendMessage (chatID : Int) (text : Str) (replyMarkup : Option InlineKeyboardMarkup)
  deriving DecidableEq, Repr

/-- The result of one run of `Show`: the dialog after the run, the calls made
on the bot API in order, and the two return values. -/
structure ShowRun where
  dialog : Dialog
  calls : List ShowCall
  message : Option Message
  err : Option DialogError
  deriving DecidableEq, Repr

/-- The method `Dialog.showNode`: the call it makes and the two values it
returns, which are those of `SendMessage`. -/
def Dialog.showNode (d : Dialog) (b : ShowBot) (chatID : Int) (node : Node) :
    List ShowCall × Option Message × Option DialogError :=
  ([ShowCall.SendMessage chatID node.Text
      (node.buildKB d.pfx d.nodePrefix d.callbackPrefix node.ID)],
    b.sendMessage, b.sendErr.map DialogError.api)

/-- The method `Dialog.Show`. -/
def Dialog.Show (d : Dialog) (b : ShowBot) (chatID : Int) (nodeID : Str) : ShowRun :=
  let d1 : Dialog := { d with callbackHandlerID := b.handlerID }
  let registered := [ShowCall.RegisterHandler d.pfx]
  let (node, ok) := d1.findNode nodeID
  if !ok then
    { dialog := d1, calls := registered, message := none
      err := some (DialogError.nodeNotFound nodeID) }
  else
    let (sent, message, err) := d1.showNode b chatID node
    { dialog := d1, calls := registered ++ sent, message := message, err := err }

/-! ## The methods as computations on the receiver

`Show`, `callback` and `findNode` have the pointer receiver `d *Dialog`.  Here
they are written statement by statement as computations whose state is the
dialog behind that pointer: a read of a field is a `get`, an assignment to a
field is a `set`.  `findButton` has the receiver `node *Node`, which in
`callback` points to the local copy of the node that `findNode` returned, and
`buildKB` has a value receiver. -/

/-- The method `Dialog.findNode` on the receiver: the loop ranges over
`d.nodes` and returns a copy of the first node with the ID. -/
def findNodeM (id : Str) : StateM Dialog (Node × Bool) := do
  let d ← get
  pure (findNodeIn id d.nodes)

/-- The method `Node.findButton` on its receiver `node *Node`, which in
`callback` points to the local copy of the node. -/
def findButtonM (text : Str) : StateM Node (Button × Bool) := do
  let node ← get
  pure (findButtonIn text node.Keyboard)

/-- The method `Dialog.Show` on the receiver; the result is the calls made on
the bot API and the two return values. -/
def ShowM (b : ShowBot) (chatID : Int) (nodeID : Str) :
    StateM Dialog (List ShowCall × Option Message × Option DialogError) := do
  let d ← get
  let registered := [ShowCall.RegisterHandler d.pfx]
  set { d with callbackHandlerID := b.handlerID }
  let (node, ok) ← findNodeM nodeID
  if !ok then
    pure (registered, none, some (DialogError.nodeNotFound nodeID))
  else
    let d ← get
    let (sent, message, err) := d.showNode b chatID node
    pure (registered ++ sent, message, err)

/-- The method `Dialog.callback` on the receiver. -/
def callbackM (b : Bot) (update : Update) : StateM Dialog Run := do
  let acked := answer b update
  let d ← get
  let (data, isCustomCallback) := CutPrefix update.Data (d.pfx ++ d.callbackPrefix)
  if isCustomCallback then
    match decodeCustom data with
    | none => pure { calls := acked, failure := some Failure.indexOutOfRange }
    | some (parentNodeID, btnText) =>
      let (node, _) ← findNodeM parentNodeID
      let ((btn, ok), _) := Id.run ((findButtonM btnText).run node)
      if !ok then
        pure { calls := acked ++ [Call.onError (DialogError.buttonNotFound btnText)]
               failure := none }
      else
        match btn.CallbackHandler with
        | none => pure { calls := acked, failure := some Failure.nilHandler }
        | some h => pure { calls := acked ++ [Call.CallbackHandler h update], failure := none }
  else
    let d ← get
    let nodeID := TrimPrefix update.Data d.pfx
    let (node, ok) ← findNodeM nodeID
    if !ok then
      pure { calls := acked ++ [Call.onError (DialogError.nodeNotFound nodeID)]
             failure := none }
    else
      let d ← get
      let rendered := renderNode d b update node
      pure { calls := acked ++ rendered.calls, failure := rendered.failure }

/-- One use of a dialog after its construction: a call of `Show`, or a
callback query delivered to `callback`. -/
inductive Event where
  | show (b : ShowBot) (chatID : Int) (nodeID : Str)
  | callback (b : Bot) (update : Update)

/-- The dialog behind the receiver after one event: the final state of the
computation of `Show` or of `callback`. -/
def Dialog.after (d : Dialog) : Event → Dialog
  | Event.show b chatID nodeID => (Id.run ((ShowM b chatID nodeID).run d)).2
  | Event.callback b update => (Id.run ((callbackM b update).run d)).2

/-- The dialog after a sequence of events. -/
def Dialog.afterAll (d : Dialog) (events : List Event) : Dialog :=
  events.foldl Dialog.after d

/-! ## Observations on a run -/

/-- The call is a send or an edit of a message. -/
def Call.isRender : Call → Bool
  | Call.EditMessageText _ _ _ _ => true
  | Call.SendMessage _ _ _ => true
  | _ => false

/-- The call invokes a button handler. -/
def Call.isHandler : Call → Bool
  | Call.CallbackHandler _ _ => true
  | _ => false

/-- The call reports a failed lookup of a node or of a button. -/
def Call.isLookupError : Call → Bool
  | Call.onError (DialogError.nodeNotFound _) => true
  | Call.onError (DialogError.buttonNotFound _) => true
  | _ => false

/-- The call reports an error to the error sink. -/
def Call.isError : Call → Bool
  | Call.onError _ => true
  | _ => false

/-- The call is the acknowledgment of the callback query. -/
def Call.isAnswer : Call → Bool
  | Call.AnswerCallbackQuery _ => true
  | _ => false

/-- The call is an edit of a message. -/
def Call.isEdit : Call → Bool
  | Call.EditMessageText _ _ _ _ => true
  | _ => false

/-- The call is a send of a new message. -/
def Call.isSend : Call → Bool
  | Call.SendMessage _ _ _ => true
  | _ => false

/-- The call made by `Show` is a send of a new message. -/
def ShowCall.isSend : ShowCall → Bool
  | ShowCall.SendMessage _ _ _ => true
  | _ => false

/-! ## Example dialogs -/

/-- A widget prefix as `bot.RandomString(16)` may return it. -/
def wPfx : Str := "w7Kq2mXz9LpR4tVb".toList

/-- A custom-action sub-prefix as `bot.RandomString(16)` may return it. -/
def aPfx : Str := "c3Hn8sYd1GfJ6uWe".toList

/-- A navigation sub-prefix as `bot.RandomString(16)` may return it. -/
def nPfx : Str := "n5Tb0rQx2ZkM7vPa".toList

/-- The navigation button "Go" to node B. -/
def goButton : Button :=
  { Text := "Go".toList, NodeID := "B".toList, URL := [], CallbackHandler := none }

/-- The custom-action button "Click" with handler 7. -/
def clickButton : Button :=
  { Text := "Click".toList, NodeID := [], URL := [], CallbackHandler := some 7 }

/-- Node A of the scenario graph: text "Home", one row with the buttons "Go"
and "Click". -/
def nodeA : Node :=
  { ID := "A".toList, Text := "Home".toList, Keyboard := [[goButton, clickButton]] }

/-- Node B of the scenario graph: text "Away", no keyboard. -/
def nodeB : Node :=
  { ID := "B".toList, Text := "Away".toList, Keyboard := [] }

/-- The dialog built by `New` over the scenario graph, in RESEND mode. -/
def scenario : Dialog := New [nodeA, nodeB] wPfx aPfx nPfx []

/-- The option that switches the dialog to editing in place. -/
def Inline : Dialog → Dialog := fun d => { d with inline := true }

/-- A bot API on which every call succeeds. -/
def okBot : Bot := { answerOk := true, answerErr := none, editErr := none, sendErr := none }

/-- A callback query with the payload `data`, from message 2 of chat 1. -/
def tap (data : Str) : Update :=
  { CallbackQueryID := "q1".toList, Data := data, Message := some { ChatID := 1, ID := 2 } }

/-- A callback query with the payload `data`, from a message that is
inaccessible: `update.CallbackQuery.Message.Message` is nil. -/
def tapInaccessible (data : Str) : Update :=
  { CallbackQueryID := "q1".toList, Data := data, Message := none }

/-- A custom-action button with the label "x" and handler 3. -/
def xButton : Button :=
  { Text := "x".toList, NodeID := [], URL := [], CallbackHandler := some 3 }

/-- A node with the ID "a_b" that carries the button "x". -/
def underscoreNode : Node :=
  { ID := "a_b".toList, Text := "Menu".toList, Keyboard := [[xButton]] }

/-- The dialog built by `New` over the node "a_b" alone. -/
def underscoreDialog : Dialog := New [underscoreNode] wPfx aPfx nPfx []

/-- Two nodes with the same ID "A" and different texts. -/
def dupFirst : Node := { ID := "A".toList, Text := "first".toList, Keyboard := [] }

/-- The second of the two nodes with the ID "A". -/
def dupLast : Node := { ID := "A".toList, Text := "last".toList, Keyboard := [] }

/-- A bot API for `Show` that registers under the ID "h1" and sends
successfully. -/
def okShowBot : ShowBot :=
  { handlerID := "h1".toList
    sendMessage := some { ID := 10, Text := "Home".toList }
    sendErr := none }

/-- A node whose ID is the navigation sub-prefix `nPfx` followed by "X". -/
def hiddenNode : Node :=
  { ID := nPfx ++ "X".toList, Text := "Hidden".toList, Keyboard := [] }

/-- The dialog built by `New` over `hiddenNode` alone. -/
def hiddenDialog : Dialog := New [hiddenNode] wPfx aPfx nPfx []

/-- A bot API on which the acknowledgment fails with an error. -/
def failingAnswerBot : Bot :=
  { answerOk := false, answerErr := some "timeout".toList, editErr := none, sendErr := none }

/-! ## Lemmas on the `strings` functions -/

theorem HasPrefix_append (p x : Str) : HasPrefix (p ++ x) p = true := by
  simp [HasPrefix, List.take_left]

theorem HasPrefix_iff (s p : Str) : HasPrefix s p = true ↔ ∃ t, s = p ++ t := by
  constructor
  · intro h
    simp only [HasPrefix, Bool.and_eq_true, decide_eq_true_eq] at h
    refine ⟨s.drop p.length, ?_⟩
    have h2 := List.take_append_drop p.length s
    rw [h.2] at h2
    exact h2.symm
  · rintro ⟨t, rfl⟩
    exact HasPrefix_append p t

theorem HasPrefix_append_left (s p q : Str) (h : HasPrefix s p = false) :
    HasPrefix s (p ++ q) = false := by
  cases hq : HasPrefix s (p ++ q) with
  | false => rfl
  | true =>
    obtain ⟨t, ht⟩ := (HasPrefix_iff s (p ++ q)).1 hq
    have : HasPrefix s p = true := (HasPrefix_iff s p).2 ⟨q ++ t, by rw [ht, List.append_assoc]⟩
    rw [h] at this
    cases this

theorem CutPrefix_append (p x : Str) : CutPrefix (p ++ x) p = (x, true) := by
  simp [CutPrefix, HasPrefix_append, List.drop_left]

theorem CutPrefix_of_not (s p : Str) (h : HasPrefix s p = false) : CutPrefix s p = (s, false) := by
  simp [CutPrefix, h]

theorem TrimPrefix_append (p x : Str) : TrimPrefix (p ++ x) p = x := by
  simp [TrimPrefix, HasPrefix_append, List.drop_left]

theorem TrimPrefix_of_not (s p : Str) (h : HasPrefix s p = false) : TrimPrefix s p = s := by
  simp [TrimPrefix, h]

theorem Split_ne_nil (sep : Char) (s : Str) : Split sep s ≠ [] := by
  induction s with
  | nil => simp [Split]
  | cons c cs ih =>
    unfold Split
    split
    · simp
    · split <;> simp

theorem Split_no_sep (sep : Char) (x : Str) (h : sep ∉ x) : Split sep x = [x] := by
  induction x with
  | nil => rfl
  | cons c cs ih =>
    simp only [List.mem_cons, not_or] at h
    have hc : c ≠ sep := fun e => h.1 e.symm
    simp [Split, hc, ih h.2]

theorem Split_append_sep (sep : Char) (x y : Str) (h : sep ∉ x) :
    Split sep (x ++ sep :: y) = x :: Split sep y := by
  induction x with
  | nil => simp [Split]
  | cons c cs ih =>
    simp only [List.mem_cons, not_or] at h
    have hc : c ≠ sep := fun e => h.1 e.symm
    simp [Split, hc, ih h.2]

/-- The first piece of a split ends at the first occurrence of the separator. -/
theorem Split_head (sep : Char) (s b : Str) (t : List Str) (h : Split sep s = b :: t) :
    sep ∉ b ∧ ((t = [] ∧ s = b) ∨ ∃ r, s = b ++ sep :: r ∧ Split sep r = t) := by
  induction s generalizing b t with
  | nil =>
    simp only [Split, List.cons.injEq] at h
    obtain ⟨rfl, rfl⟩ := h
    simp
  | cons c cs ih =>
    unfold Split at h
    by_cases hc : c = sep
    · rw [if_pos hc] at h
      simp only [List.cons.injEq] at h
      obtain ⟨rfl, rfl⟩ := h
      exact ⟨by simp, Or.inr ⟨cs, by simp [hc], rfl⟩⟩
    · rw [if_neg hc] at h
      cases hs : Split sep cs with
      | nil => exact absurd hs (Split_ne_nil sep cs)
      | cons piece rest =>
        rw [hs] at h
        simp only [List.cons.injEq] at h
        obtain ⟨rfl, rfl⟩ := h
        obtain ⟨hp, hrest⟩ := ih piece rest hs
        refine ⟨?_, ?_⟩
        · simp only [List.mem_cons, not_or]
          exact ⟨fun e => hc e.symm, hp⟩
        · rcases hrest with ⟨h1, h2⟩ | ⟨r, h1, h2⟩
          · exact Or.inl ⟨h1, by rw [h2]⟩
          · exact Or.inr ⟨r, by rw [h1]; rfl, h2⟩

/-- The two pieces `callback` reads are separated by the first two occurrences
of the separator. -/
theorem Split_two (sep : Char) (s a b : Str) (t : List Str) (h : Split sep s = a :: b :: t) :
    sep ∉ a ∧ sep ∉ b ∧ ∃ rest, s = a ++ sep :: b ++ rest ∧ (rest = [] ∨ ∃ r, rest = sep :: r) := by
  obtain ⟨ha, h1⟩ := Split_head sep s a (b :: t) h
  rcases h1 with ⟨h1, _⟩ | ⟨r, hs, hr⟩
  · cases h1
  · obtain ⟨hb, h2⟩ := Split_head sep r b t hr
    refine ⟨ha, hb, ?_⟩
    rcases h2 with ⟨_, h2⟩ | ⟨r2, h2, _⟩
    · exact ⟨[], by rw [hs, h2]; simp, Or.inl rfl⟩
    · exact ⟨sep :: r2, by rw [hs, h2]; simp, Or.inr ⟨r2, rfl⟩⟩

/-! ## Lemmas on the lookups -/

theorem findNodeIn_first (id : Str) (pre post : List Node) (N : Node) (hN : N.ID = id)
    (hpre : ∀ M ∈ pre, M.ID ≠ id) : findNodeIn id (pre ++ N :: post) = (N, true) := by
  induction pre with
  | nil => simp [findNodeIn, hN]
  | cons M pre ih =>
    have hM : M.ID ≠ id := hpre M (by simp)
    simp only [List.cons_append, findNodeIn, if_neg hM]
    exact ih (fun K hK => hpre K (by simp [hK]))

theorem findNodeIn_absent (id : Str) (nodes : List Node) (h : ∀ M ∈ nodes, M.ID ≠ id) :
    findNodeIn id nodes = ({ ID := [], Text := [], Keyboard := [] }, false) := by
  induction nodes with
  | nil => rfl
  | cons M rest ih =>
    have hM : M.ID ≠ id := h M (by simp)
    simp only [findNodeIn, if_neg hM]
    exact ih (fun K hK => h K (by simp [hK]))

/-- A successful lookup returns a node of the list with the ID asked for. -/
theorem findNodeIn_found (id : Str) (nodes : List Node) (h : (findNodeIn id nodes).2 = true) :
    (findNodeIn id nodes).1 ∈ nodes ∧ (findNodeIn id nodes).1.ID = id := by
  induction nodes with
  | nil => simp [findNodeIn] at h
  | cons M rest ih =>
    by_cases hM : M.ID = id
    · simp [findNodeIn, hM]
    · simp only [findNodeIn, if_neg hM] at h ⊢
      exact ⟨List.mem_cons_of_mem _ (ih h).1, (ih h).2⟩

theorem findNodeIn_unique (nodes : List Node) (N : Node) (hN : N ∈ nodes)
    (huniq : ∀ M ∈ nodes, M.ID = N.ID → M = N) : findNodeIn N.ID nodes = (N, true) := by
  induction nodes with
  | nil => simp at hN
  | cons M rest ih =>
    by_cases hM : M.ID = N.ID
    · have : M = N := huniq M (by simp) hM
      simp [findNodeIn, this]
    · simp only [findNodeIn, if_neg hM]
      have hN2 : N ∈ rest := by
        rcases List.mem_cons.1 hN with h | h
        · exact absurd (by rw [h]) hM
        · exact h
      exact ih hN2 (fun K hK => huniq K (by simp [hK]))

theorem findButtonInRow_none (text : Str) (row : List Button) (h : ∀ b ∈ row, b.Text ≠ text) :
    findButtonInRow text row = none := by
  induction row with
  | nil => rfl
  | cons b rest ih =>
    have hb : b.Text ≠ text := h b (by simp)
    simp only [findButtonInRow, if_neg hb]
    exact ih (fun K hK => h K (by simp [hK]))

theorem findButtonInRow_first (text : Str) (pre post : List Button) (B : Button)
    (hB : B.Text = text) (hpre : ∀ b ∈ pre, b.Text ≠ text) :
    findButtonInRow text (pre ++ B :: post) = some B := by
  induction pre with
  | nil => simp [findButtonInRow, hB]
  | cons b pre ih =>
    have hb : b.Text ≠ text := hpre b (by simp)
    simp only [List.cons_append, findButtonInRow, if_neg hb]
    exact ih (fun K hK => hpre K (by simp [hK]))

theorem findButtonInRow_some (text : Str) (row : List Button) (B : Button)
    (h : findButtonInRow text row = some B) : B ∈ row ∧ B.Text = text := by
  induction row with
  | nil => simp [findButtonInRow] at h
  | cons b rest ih =>
    by_cases hb : b.Text = text
    · simp only [findButtonInRow, if_pos hb, Option.some.injEq] at h
      subst h
      exact ⟨by simp, hb⟩
    · simp only [findButtonInRow, if_neg hb] at h
      exact ⟨List.mem_cons_of_mem _ (ih h).1, (ih h).2⟩

/-- The button `findButton` returns is the first one, rows first, with the
text. -/
theorem findButtonIn_first (text : Str) (rowsBefore rowsAfter : List (List Button))
    (pre post : List Button) (B : Button) (hB : B.Text = text)
    (hrows : ∀ row ∈ rowsBefore, ∀ b ∈ row, b.Text ≠ text) (hpre : ∀ b ∈ pre, b.Text ≠ text) :
    findButtonIn text (rowsBefore ++ (pre ++ B :: post) :: rowsAfter) = (B, true) := by
  induction rowsBefore with
  | nil => simp [findButtonIn, findButtonInRow_first text pre post B hB hpre]
  | cons row rows ih =>
    have hrow : findButtonInRow text row = none :=
      findButtonInRow_none text row (hrows row (by simp))
    simp only [List.cons_append, findButtonIn, hrow]
    exact ih (fun r hr => hrows r (by simp [hr]))

/-- A successful button lookup returns a button of the keyboard with the text
asked for. -/
theorem findButtonIn_found (text : Str) (rows : List (List Button))
    (h : (findButtonIn text rows).2 = true) :
    (∃ row ∈ rows, (findButtonIn text rows).1 ∈ row) ∧ (findButtonIn text rows).1.Text = text := by
  induction rows with
  | nil => simp [findButtonIn] at h
  | cons row rest ih =>
    cases hrow : findButtonInRow text row with
    | some B =>
      obtain ⟨h1, h2⟩ := findButtonInRow_some text row B hrow
      simp only [findButtonIn, hrow]
      exact ⟨⟨row, by simp, h1⟩, h2⟩
    | none =>
      simp only [findButtonIn, hrow] at h ⊢
      obtain ⟨⟨r, hr, hmem⟩, h2⟩ := ih h
      exact ⟨⟨r, List.mem_cons_of_mem _ hr, hmem⟩, h2⟩

/-! ## Lemmas on `callback` -/

theorem decodeCustom_pair (id text : Str) (hid : '_' ∉ id) (htext : '_' ∉ text) :
    decodeCustom (id ++ ['_'] ++ text) = some (id, text) := by
  have h : id ++ ['_'] ++ text = id ++ '_' :: text := by simp
  rw [h]
  unfold decodeCustom
  rw [Split_append_sep '_' id text hid, Split_no_sep '_' text htext]
  rfl

theorem callback_custom (d : Dialog) (b : Bot) (u : Update) (Y : Str)
    (h : u.Data = d.pfx ++ d.callbackPrefix ++ Y) :
    d.callback b u =
      { calls := answer b u ++ (customBranch d u Y).calls
        failure := (customBranch d u Y).failure } := by
  unfold Dialog.callback
  rw [h, CutPrefix_append]
  rfl

theorem callback_nav (d : Dialog) (b : Bot) (u : Update)
    (h : HasPrefix u.Data (d.pfx ++ d.callbackPrefix) = false) :
    d.callback b u =
      { calls := answer b u ++ (navBranch d b u).calls
        failure := (navBranch d b u).failure } := by
  unfold Dialog.callback
  rw [CutPrefix_of_not _ _ h]
  rfl

/-- The navigation path looks up the emitted payload with only the widget
prefix removed. -/
theorem decodeNav_emitted (d : Dialog) (id : Str) :
    decodeNav d (d.pfx ++ d.nodePrefix ++ id) = d.nodePrefix ++ id := by
  unfold decodeNav
  rw [List.append_assoc, TrimPrefix_append]

theorem answer_not_render (b : Bot) (u : Update) : ∀ c ∈ answer b u, c.isRender = false := by
  obtain ⟨ok, err, e, s⟩ := b
  cases ok <;> cases err <;> simp [answer, Call.isRender]

theorem answer_not_handler (b : Bot) (u : Update) : ∀ c ∈ answer b u, c.isHandler = false := by
  obtain ⟨ok, err, e, s⟩ := b
  cases ok <;> cases err <;> simp [answer, Call.isHandler]

theorem answer_not_lookupError (b : Bot) (u : Update) :
    ∀ c ∈ answer b u, c.isLookupError = false := by
  obtain ⟨ok, err, e, s⟩ := b
  cases ok <;> cases err <;> simp [answer, Call.isLookupError]

theorem renderNode_not_handler (d : Dialog) (b : Bot) (u : Update) (N : Node) :
    ∀ c ∈ (renderNode d b u N).calls, c.isHandler = false := by
  obtain ⟨ok, err, e, s⟩ := b
  cases hm : u.Message <;> cases hi : d.inline <;> cases e <;> cases s <;>
    simp [renderNode, hm, hi, Call.isHandler]

theorem findNodeIn_not_found (id : Str) (nodes : List Node)
    (h : (findNodeIn id nodes).2 = false) :
    (findNodeIn id nodes).1 = { ID := [], Text := [], Keyboard := [] } := by
  induction nodes with
  | nil => rfl
  | cons M rest ih =>
    by_cases hM : M.ID = id
    · simp [findNodeIn, hM] at h
    · simp only [findNodeIn, if_neg hM] at h ⊢
      exact ih h

theorem decodeCustom_some (data p t : Str) (h : decodeCustom data = some (p, t)) :
    ∃ tl, Split '_' data = p :: t :: tl := by
  unfold decodeCustom at h
  cases hs : Split '_' data with
  | nil => simp [hs] at h
  | cons a l =>
    cases l with
    | nil => simp [hs] at h
    | cons a2 tl =>
      simp [hs] at h
      exact ⟨tl, by rw [h.1, h.2]⟩

/-- What the custom-action branch does when it makes any call that is not an
error report: the parent node and the button were found and the handler of the
button is called once. -/
theorem customBranch_handler (d : Dialog) (u : Update) (Y : Str) (c : Call)
    (hc : c ∈ (customBranch d u Y).calls) (hk : c.isRender = true ∨ c.isHandler = true) :
    ∃ N ∈ d.nodes, ∃ row ∈ N.Keyboard, ∃ B ∈ row, ∃ h rest,
      B.CallbackHandler = some h
      ∧ Y = N.ID ++ ['_'] ++ B.Text ++ rest
      ∧ (rest = [] ∨ ∃ r, rest = '_' :: r)
      ∧ customBranch d u Y = { calls := [Call.CallbackHandler h u], failure := none } := by
  unfold customBranch at hc ⊢
  cases hd : decodeCustom Y with
  | none => simp [hd] at hc
  | some pt =>
    obtain ⟨p, t⟩ := pt
    obtain ⟨tl, hsplit⟩ := decodeCustom_some Y p t hd
    obtain ⟨_, _, rest, hY, hrest⟩ := Split_two '_' Y p t tl hsplit
    simp only [hd] at hc ⊢
    cases hok : ((d.findNode p).1.findButton t).2 with
    | false =>
      simp [hok] at hc
      subst hc
      simp [Call.isRender, Call.isHandler] at hk
    | true =>
      have hfound : (d.findNode p).2 = true := by
        cases hf : (d.findNode p).2 with
        | true => rfl
        | false =>
          have hz := findNodeIn_not_found p d.nodes hf
          unfold Dialog.findNode at hok
          rw [hz] at hok
          simp [Node.findButton, findButtonIn] at hok
      obtain ⟨hmem, hid⟩ := findNodeIn_found p d.nodes hfound
      obtain ⟨⟨row, hrow, hB⟩, htext⟩ :=
        findButtonIn_found t (d.findNode p).1.Keyboard hok
      cases hh : ((d.findNode p).1.findButton t).1.CallbackHandler with
      | none => simp [hok, hh] at hc
      | some h =>
        refine ⟨(d.findNode p).1, hmem, row, hrow, ((d.findNode p).1.findButton t).1, hB, h,
          rest, hh, ?_, hrest, ?_⟩
        · have h1 : (d.findNode p).1.ID = p := hid
          have h2 : ((d.findNode p).1.findButton t).1.Text = t := htext
          rw [h1, h2, hY]
          simp
        · simp [hok, hh]

/-- The callback data of a custom-action button, its cut and its decoding. -/
theorem customPayload_roundtrip (d : Dialog) (N : Node) (B : Button)
    (hURL : B.URL = []) (hH : B.CallbackHandler ≠ none)
    (hText : '_' ∉ B.Text) (hID : '_' ∉ N.ID) :
    (buildButton d.pfx d.nodePrefix d.callbackPrefix N.ID B).CallbackData
        = d.pfx ++ d.callbackPrefix ++ N.ID ++ ['_'] ++ B.Text
    ∧ CutPrefix (d.pfx ++ d.callbackPrefix ++ N.ID ++ ['_'] ++ B.Text)
          (d.pfx ++ d.callbackPrefix) = (N.ID ++ ['_'] ++ B.Text, true)
    ∧ decodeCustom (N.ID ++ ['_'] ++ B.Text) = some (N.ID, B.Text) := by
  have hdata : (buildButton d.pfx d.nodePrefix d.callbackPrefix N.ID B).CallbackData
      = d.pfx ++ d.callbackPrefix ++ N.ID ++ ['_'] ++ B.Text := by
    simp [buildButton, hURL, hH]
  have hcut : CutPrefix (d.pfx ++ d.callbackPrefix ++ N.ID ++ ['_'] ++ B.Text)
      (d.pfx ++ d.callbackPrefix) = (N.ID ++ ['_'] ++ B.Text, true) := by
    have h : d.pfx ++ d.callbackPrefix ++ N.ID ++ ['_'] ++ B.Text
        = (d.pfx ++ d.callbackPrefix) ++ (N.ID ++ ['_'] ++ B.Text) := by simp
    rw [h, CutPrefix_append]
  exact ⟨hdata, hcut, decodeCustom_pair N.ID B.Text hID hText⟩

theorem findNodeIn_of_mem (id : Str) (nodes : List Node) (h : ∃ M ∈ nodes, M.ID = id) :
    (findNodeIn id nodes).2 = true := by
  cases hf : (findNodeIn id nodes).2 with
  | true => rfl
  | false =>
    obtain ⟨M, hM, hid⟩ := h
    exfalso
    induction nodes with
    | nil => simp at hM
    | cons K rest ih =>
      by_cases hK : K.ID = id
      · simp [findNodeIn, hK] at hf
      · simp only [findNodeIn, if_neg hK] at hf
        rcases List.mem_cons.1 hM with e | e
        · exact hK (e ▸ hid)
        · exact ih hf e

theorem findNodeIn_false_iff (id : Str) (nodes : List Node) :
    (findNodeIn id nodes).2 = false ↔ ∀ M ∈ nodes, M.ID ≠ id := by
  constructor
  · intro hf M hM hid
    have := findNodeIn_of_mem id nodes ⟨M, hM, hid⟩
    rw [hf] at this
    cases this
  · intro h
    rw [findNodeIn_absent id nodes h]

/-- With the message present, the rendering is one edit or one send and the
report of its error. -/
theorem renderNode_of_message (d : Dialog) (b : Bot) (u : Update) (N : Node)
    (m : CallbackMessage) (hm : u.Message = some m) :
    renderNode d b u N =
      { calls :=
          [if d.inline then
              Call.EditMessageText m.ChatID m.ID N.Text
                (N.buildKB d.pfx d.nodePrefix d.callbackPrefix N.ID)
            else
              Call.SendMessage m.ChatID N.Text
                (N.buildKB d.pfx d.nodePrefix d.callbackPrefix N.ID)]
          ++ (match (if d.inline then b.editErr else b.sendErr) with
              | some e => [Call.onError (DialogError.api e)]
              | none => [])
        failure := none } := by
  cases hi : d.inline <;> simp [renderNode, hm, hi]

theorem renderNode_has_render (d : Dialog) (b : Bot) (u : Update) (N : Node)
    (m : CallbackMessage) (hm : u.Message = some m) :
    ∃ c ∈ (renderNode d b u N).calls, c.isRender = true := by
  rw [renderNode_of_message d b u N m hm]
  cases hi : d.inline
  · exact ⟨Call.SendMessage m.ChatID N.Text
      (N.buildKB d.pfx d.nodePrefix d.callbackPrefix N.ID), by simp, rfl⟩
  · exact ⟨Call.EditMessageText m.ChatID m.ID N.Text
      (N.buildKB d.pfx d.nodePrefix d.callbackPrefix N.ID), by simp, rfl⟩

/-- A run of the rendering that makes a call has the message present. -/
theorem renderNode_calls_message (d : Dialog) (b : Bot) (u : Update) (N : Node) (c : Call)
    (hc : c ∈ (renderNode d b u N).calls) : ∃ m, u.Message = some m := by
  cases hm : u.Message with
  | none => simp [renderNode, hm] at hc
  | some m => exact ⟨m, rfl⟩

theorem renderNode_not_answer (d : Dialog) (b : Bot) (u : Update) (N : Node) :
    ∀ c ∈ (renderNode d b u N).calls, c.isAnswer = false := by
  obtain ⟨ok, err, e, s⟩ := b
  cases hm : u.Message <;> cases hi : d.inline <;> cases e <;> cases s <;>
    simp [renderNode, hm, hi, Call.isAnswer]

theorem answer_eq (b : Bot) (u : Update) :
    answer b u = Call.AnswerCallbackQuery u.CallbackQueryID ::
      ((match b.answerErr with
        | some e => [Call.onError (DialogError.api e)]
        | none => [])
      ++ (if b.answerOk then [] else [Call.onError DialogError.answerFailed])) := by
  obtain ⟨ok, err, e, s⟩ := b
  cases ok <;> cases err <;> simp [answer]

/-- What `callback` does after the acknowledgment: the calls and the failure
of the branch it takes. -/
theorem callback_eq_answer_append (d : Dialog) (b : Bot) (u : Update) :
    ∃ rest : Run, d.callback b u = { calls := answer b u ++ rest.calls, failure := rest.failure }
      ∧ (∀ c ∈ rest.calls, c.isAnswer = false)
      ∧ ∀ b2 : Bot, b2.editErr = b.editErr → b2.sendErr = b.sendErr →
          d.callback b2 u = { calls := answer b2 u ++ rest.calls, failure := rest.failure } := by
  cases hp : HasPrefix u.Data (d.pfx ++ d.callbackPrefix) with
  | true =>
    obtain ⟨Y, hY⟩ := (HasPrefix_iff _ _).1 hp
    refine ⟨customBranch d u Y, callback_custom d b u Y hY, ?_,
      fun b2 _ _ => callback_custom d b2 u Y hY⟩
    intro c hc
    unfold customBranch at hc
    cases hd : decodeCustom Y with
    | none => simp [hd] at hc
    | some pt =>
      obtain ⟨p, t⟩ := pt
      simp only [hd] at hc
      cases hok : ((d.findNode p).1.findButton t).2 with
      | false =>
        simp [hok] at hc
        subst hc
        rfl
      | true =>
        cases hh : ((d.findNode p).1.findButton t).1.CallbackHandler with
        | none => simp [hok, hh] at hc
        | some h =>
          simp [hok, hh] at hc
          subst hc
          rfl
  | false =>
    refine ⟨navBranch d b u, callback_nav d b u hp, ?_, ?_⟩
    · intro c hc
      unfold navBranch at hc
      cases hf : (d.findNode (decodeNav d u.Data)).2 with
      | false =>
        simp [hf] at hc
        subst hc
        rfl
      | true =>
        simp [hf] at hc
        exact renderNode_not_answer d b u _ c hc
    · intro b2 he hs
      rw [callback_nav d b2 u hp]
      have : navBranch d b2 u = navBranch d b u := by
        unfold navBranch renderNode
        rw [he, hs]
      rw [this]

theorem findButtonInRow_eq_none (text : Str) (row : List Button)
    (h : findButtonInRow text row = none) : ∀ b ∈ row, b.Text ≠ text := by
  induction row with
  | nil => simp
  | cons x rest ih =>
    by_cases hx : x.Text = text
    · simp [findButtonInRow, hx] at h
    · simp only [findButtonInRow, if_neg hx] at h
      intro b hb
      rcases List.mem_cons.1 hb with e | e
      · rw [e]
        exact hx
      · exact ih h b e

/-- The button found in a row stands at the least index with the text. -/
theorem findButtonInRow_least (text : Str) (row : List Button) (B : Button)
    (h : findButtonInRow text row = some B) :
    ∃ j, row[j]? = some B
      ∧ ∀ (k : Nat) (x : Button), row[k]? = some x → x.Text = text → j ≤ k := by
  induction row with
  | nil => simp [findButtonInRow] at h
  | cons y rest ih =>
    by_cases hy : y.Text = text
    · simp only [findButtonInRow, if_pos hy, Option.some.injEq] at h
      subst h
      exact ⟨0, by simp, fun k _ _ _ => Nat.zero_le k⟩
    · simp only [findButtonInRow, if_neg hy] at h
      obtain ⟨j, hj, hleast⟩ := ih h
      refine ⟨j + 1, by simpa using hj, ?_⟩
      intro k x hk hx
      cases k with
      | zero =>
        simp only [List.getElem?_cons_zero, Option.some.injEq] at hk
        subst hk
        exact absurd hx hy
      | succ k =>
        simp only [List.getElem?_cons_succ] at hk
        exact Nat.succ_le_succ (hleast k x hk hx)

theorem findButtonIn_false_iff (text : Str) (rows : List (List Button)) :
    (findButtonIn text rows).2 = false ↔ ∀ row ∈ rows, ∀ b ∈ row, b.Text ≠ text := by
  induction rows with
  | nil => simp [findButtonIn]
  | cons row rest ih =>
    cases hrow : findButtonInRow text row with
    | some B =>
      obtain ⟨hmem, htext⟩ := findButtonInRow_some text row B hrow
      simp only [findButtonIn, hrow]
      constructor
      · intro h
        cases h
      · intro h
        exact absurd htext (h row (by simp) B hmem)
    | none =>
      simp only [findButtonIn, hrow]
      rw [ih]
      constructor
      · intro h r hr
        rcases List.mem_cons.1 hr with e | e
        · rw [e]
          exact findButtonInRow_eq_none text row hrow
        · exact h r e
      · intro h r hr
        exact h r (List.mem_cons_of_mem _ hr)

/-- The button found stands at the least position, rows first, with the
text. -/
theorem findButtonIn_least (text : Str) (rows : List (List Button))
    (h : (findButtonIn text rows).2 = true) :
    ∃ (i j : Nat) (row : List Button), rows[i]? = some row
      ∧ row[j]? = some (findButtonIn text rows).1
      ∧ ∀ (i2 j2 : Nat) (row2 : List Button) (x : Button), rows[i2]? = some row2 →
          row2[j2]? = some x → x.Text = text → i < i2 ∨ (i = i2 ∧ j ≤ j2) := by
  induction rows with
  | nil => simp [findButtonIn] at h
  | cons row rest ih =>
    cases hrow : findButtonInRow text row with
    | some B =>
      obtain ⟨j, hj, hleast⟩ := findButtonInRow_least text row B hrow
      simp only [findButtonIn, hrow]
      refine ⟨0, j, row, by simp, hj, ?_⟩
      intro i2 j2 row2 x hi2 hj2 hx
      cases i2 with
      | zero =>
        simp only [List.getElem?_cons_zero, Option.some.injEq] at hi2
        subst hi2
        exact Or.inr ⟨rfl, hleast j2 x hj2 hx⟩
      | succ i2 => exact Or.inl (Nat.succ_pos i2)
    | none =>
      simp only [findButtonIn, hrow] at h ⊢
      obtain ⟨i, j, r, hi, hj, hleast⟩ := ih h
      refine ⟨i + 1, j, r, by simpa using hi, hj, ?_⟩
      intro i2 j2 row2 x hi2 hj2 hx
      cases i2 with
      | zero =>
        simp only [List.getElem?_cons_zero, Option.some.injEq] at hi2
        subst hi2
        have hmem : x ∈ row := List.getElem?_mem hj2
        exact absurd hx (findButtonInRow_eq_none text row hrow x hmem)
      | succ i2 =>
        simp only [List.getElem?_cons_succ] at hi2
        rcases hleast i2 j2 row2 x hi2 hj2 hx with h1 | ⟨h1, h2⟩
        · exact Or.inl (Nat.succ_lt_succ h1)
        · exact Or.inr ⟨by rw [h1], h2⟩

/-- The first piece of a split is the part before the first separator, and
the other pieces are the split of what follows that separator. -/
theorem Split_eq_takeWhile (sep : Char) (s : Str) :
    Split sep s = s.takeWhile (fun c => !decide (c = sep)) ::
      (match s.dropWhile (fun c => !decide (c = sep)) with
        | [] => []
        | _ :: r => Split sep r) := by
  induction s with
  | nil => rfl
  | cons c cs ih =>
    by_cases hc : c = sep
    · simp [Split, hc, List.takeWhile, List.dropWhile]
    · have h1 : Split sep (c :: cs) = (c :: cs.takeWhile (fun c => !decide (c = sep))) ::
          (match cs.dropWhile (fun c => !decide (c = sep)) with
            | [] => []
            | _ :: r => Split sep r) := by
        rw [Split, if_neg hc, ih]
      rw [h1]
      simp [List.takeWhile, List.dropWhile, hc]

theorem dropWhile_of_mem (sep : Char) (s : Str) (h : sep ∈ s) :
    ∃ r, s.dropWhile (fun c => !decide (c = sep)) = sep :: r := by
  induction s with
  | nil => simp at h
  | cons c cs ih =>
    by_cases hc : c = sep
    · exact ⟨cs, by simp [List.dropWhile, hc]⟩
    · have hmem : sep ∈ cs := by
        rcases List.mem_cons.1 h with e | e
        · exact absurd e.symm hc
        · exact e
      obtain ⟨r, hr⟩ := ih hmem
      exact ⟨r, by simp [List.dropWhile, hc, hr]⟩

theorem decodeCustom_of_mem (R : Str) (h : '_' ∈ R) :
    decodeCustom R = some (R.takeWhile (fun c => !decide (c = '_')),
      ((R.dropWhile (fun c => !decide (c = '_'))).drop 1).takeWhile
        (fun c => !decide (c = '_'))) := by
  obtain ⟨r, hr⟩ := dropWhile_of_mem '_' R h
  unfold decodeCustom
  rw [Split_eq_takeWhile '_' R, hr]
  simp only []
  rw [Split_eq_takeWhile '_' r]
  simp

theorem Show_dialog (d : Dialog) (b : ShowBot) (chatID : Int) (nodeID : Str) :
    (d.Show b chatID nodeID).dialog = { d with callbackHandlerID := b.handlerID } := by
  unfold Dialog.Show
  cases hf : (Dialog.findNode { d with callbackHandlerID := b.handlerID } nodeID).2 <;>
    simp [hf]

/-- The computation of `findNode` returns what `findNode` returns and leaves
the dialog as it was. -/
theorem findNodeM_run (id : Str) (d : Dialog) :
    Id.run ((findNodeM id).run d) = (d.findNode id, d) := rfl

/-- The computation of `findButton` returns what `findButton` returns and
leaves the node as it was. -/
theorem findButtonM_run (text : Str) (node : Node) :
    Id.run ((findButtonM text).run node) = (node.findButton text, node) := rfl

/-- The computation of `callback` returns the run of `callback` and leaves the
dialog as it was. -/
theorem callbackM_run (b : Bot) (u : Update) (d : Dialog) :
    Id.run ((callbackM b u).run d) = (d.callback b u, d) := by
  unfold callbackM Dialog.callback CutPrefix
  cases hp : HasPrefix u.Data (d.pfx ++ d.callbackPrefix) with
  | false =>
    cases hf : (findNodeIn (TrimPrefix u.Data d.pfx) d.nodes).2 <;>
      simp [StateT.run, bind, StateT.bind, get, getThe, MonadStateOf.get, StateT.get, pure,
        StateT.pure, Id.run, hp, navBranch, decodeNav, findNodeM, Dialog.findNode, hf]
  | true =>
    cases hd : decodeCustom (u.Data.drop (d.pfx.length + d.callbackPrefix.length)) with
    | none =>
      simp [StateT.run, bind, StateT.bind, get, getThe, MonadStateOf.get, StateT.get, pure,
        StateT.pure, Id.run, hp, customBranch, hd]
    | some pt =>
      obtain ⟨p, t⟩ := pt
      cases hok : (findButtonIn t (findNodeIn p d.nodes).1.Keyboard).2 with
      | false =>
        simp [StateT.run, bind, StateT.bind, get, getThe, MonadStateOf.get, StateT.get, pure,
          StateT.pure, Id.run, hp, customBranch, hd, findNodeM, findButtonM, Node.findButton,
          Dialog.findNode, hok]
      | true =>
        cases hh : (findButtonIn t (findNodeIn p d.nodes).1.Keyboard).1.CallbackHandler <;>
          simp [StateT.run, bind, StateT.bind, get, getThe, MonadStateOf.get, StateT.get, pure,
            StateT.pure, Id.run, hp, customBranch, hd, findNodeM, findButtonM, Node.findButton,
            Dialog.findNode, hok, hh]

/-- The computation of `Show` returns the results of `Show` and ends in the
dialog of `Show`. -/
theorem ShowM_run (b : ShowBot) (chatID : Int) (nodeID : Str) (d : Dialog) :
    Id.run ((ShowM b chatID nodeID).run d)
      = (((d.Show b chatID nodeID).calls, (d.Show b chatID nodeID).message,
          (d.Show b chatID nodeID).err), (d.Show b chatID nodeID).dialog) := by
  unfold ShowM Dialog.Show
  cases hf : (findNodeIn nodeID d.nodes).2 <;>
    simp [StateT.run, bind, StateT.bind, get, getThe, MonadStateOf.get, StateT.get, pure,
      StateT.pure, Id.run, set, StateT.set, findNodeM, Dialog.findNode, Dialog.showNode, hf]

/-- On the navigation path, with the node found and the message present,
`callback` makes one edit or one send after the acknowledgment, and reports
the error of that call. -/
theorem callback_found_with_message (d : Dialog) (b : Bot) (u : Update) (N : Node)
    (m : CallbackMessage)
    (hnav : HasPrefix u.Data (d.pfx ++ d.callbackPrefix) = false)
    (hfind : d.findNode (decodeNav d u.Data) = (N, true)) (hm : u.Message = some m) :
    d.callback b u =
      { calls := answer b u
          ++ ([if d.inline then
                Call.EditMessageText m.ChatID m.ID N.Text
                  (N.buildKB d.pfx d.nodePrefix d.callbackPrefix N.ID)
              else
                Call.SendMessage m.ChatID N.Text
                  (N.buildKB d.pfx d.nodePrefix d.callbackPrefix N.ID)]
            ++ (match (if d.inline then b.editErr else b.sendErr) with
                | some e => [Call.onError (DialogError.api e)]
                | none => []))
        failure := none } := by
  have hrun : navBranch d b u = renderNode d b u N := by
    simp only [navBranch, hfind]
    rfl
  rw [callback_nav d b u hnav, hrun, renderNode_of_message d b u N m hm]

/-- On the navigation path, with no node found, `callback` reports
node-not-found for the ID looked up and does nothing else. -/
theorem callback_not_found (d : Dialog) (b : Bot) (u : Update)
    (hnav : HasPrefix u.Data (d.pfx ++ d.callbackPrefix) = false)
    (hf : (d.findNode (decodeNav d u.Data)).2 = false) :
    d.callback b u =
      { calls := answer b u ++ [Call.onError (DialogError.nodeNotFound (decodeNav d u.Data))]
        failure := none } := by
  rw [callback_nav d b u hnav]
  simp [navBranch, hf]

/-! ## The claims -/

/-- C1 (fails on the code): in the scenario graph, the callback data that
`buildKB` emits for the button "Go" to node B is the widget prefix, the
navigation sub-prefix and "B"; `callback` decodes it to the navigation
sub-prefix followed by "B", not to "B", finds no node and reports
node-not-found without sending or editing anything, in both render modes. -/
theorem C1_navigation_payload_misses_node :
    (buildButton scenario.pfx scenario.nodePrefix scenario.callbackPrefix nodeA.ID
        goButton).CallbackData = wPfx ++ nPfx ++ "B".toList
    ∧ decodeNav scenario (wPfx ++ nPfx ++ "B".toList) = nPfx ++ "B".toList
    ∧ decodeNav scenario (wPfx ++ nPfx ++ "B".toList) ≠ nodeB.ID
    ∧ scenario.callback okBot (tap (wPfx ++ nPfx ++ "B".toList)) =
        { calls := [Call.AnswerCallbackQuery "q1".toList,
                    Call.onError (DialogError.nodeNotFound (nPfx ++ "B".toList))]
          failure := none }
    ∧ (New [nodeA, nodeB] wPfx aPfx nPfx [Inline]).callback okBot
          (tap (wPfx ++ nPfx ++ "B".toList)) =
        { calls := [Call.AnswerCallbackQuery "q1".toList,
                    Call.onError (DialogError.nodeNotFound (nPfx ++ "B".toList))]
          failure := none } := by
  refine ⟨by decide, by decide, by decide, by decide, by decide⟩

/-- C2 (as stated, false): for the node with the ID "a_b" and its
custom-action button with the label "x", which contains no separator, the
custom-action branch decodes the emitted callback data to the pair
("a", "b"), not ("a_b", "x"), and `callback` reports that the button "b" is
not found. -/
theorem C2_counterexample :
    xButton.URL = [] ∧ xButton.CallbackHandler ≠ none ∧ '_' ∉ xButton.Text
    ∧ (buildButton underscoreDialog.pfx underscoreDialog.nodePrefix
          underscoreDialog.callbackPrefix underscoreNode.ID xButton).CallbackData
        = wPfx ++ aPfx ++ "a_b_x".toList
    ∧ CutPrefix (wPfx ++ aPfx ++ "a_b_x".toList)
          (underscoreDialog.pfx ++ underscoreDialog.callbackPrefix) = ("a_b_x".toList, true)
    ∧ decodeCustom "a_b_x".toList = some ("a".toList, "b".toList)
    ∧ decodeCustom "a_b_x".toList ≠ some (underscoreNode.ID, xButton.Text)
    ∧ underscoreDialog.callback okBot (tap (wPfx ++ aPfx ++ "a_b_x".toList)) =
        { calls := [Call.AnswerCallbackQuery "q1".toList,
                    Call.onError (DialogError.buttonNotFound "b".toList)]
          failure := none } := by
  refine ⟨by decide, by decide, by decide, by decide, by decide, by decide, by decide,
    by decide⟩

/-- C2 (amended): for every dialog, every node whose ID contains no `_` and
every custom-action button (empty URL, non-nil handler) whose label contains
no `_`, the callback data emitted for the button begins with the widget prefix
and the custom-action sub-prefix, and the custom-action branch decodes the
rest to the pair of the node ID and the label. -/
theorem C2_custom_action_roundtrip (d : Dialog) (N : Node) (B : Button)
    (hURL : B.URL = []) (hH : B.CallbackHandler ≠ none)
    (hText : '_' ∉ B.Text) (hID : '_' ∉ N.ID) :
    (buildButton d.pfx d.nodePrefix d.callbackPrefix N.ID B).CallbackData
        = d.pfx ++ d.callbackPrefix ++ N.ID ++ ['_'] ++ B.Text
    ∧ (CutPrefix (buildButton d.pfx d.nodePrefix d.callbackPrefix N.ID B).CallbackData
          (d.pfx ++ d.callbackPrefix)).2 = true
    ∧ decodeCustom (CutPrefix (buildButton d.pfx d.nodePrefix d.callbackPrefix N.ID B).CallbackData
          (d.pfx ++ d.callbackPrefix)).1 = some (N.ID, B.Text) := by
  obtain ⟨hdata, hcut, hdec⟩ := customPayload_roundtrip d N B hURL hH hText hID
  rw [hdata, hcut]
  exact ⟨rfl, rfl, hdec⟩

/-- C2 (amended), at the node A and the button "Click" of the scenario. -/
theorem C2_custom_action_roundtrip_witness :
    (buildButton scenario.pfx scenario.nodePrefix scenario.callbackPrefix nodeA.ID
        clickButton).CallbackData = wPfx ++ aPfx ++ "A".toList ++ ['_'] ++ "Click".toList
    ∧ (CutPrefix (buildButton scenario.pfx scenario.nodePrefix scenario.callbackPrefix nodeA.ID
          clickButton).CallbackData (scenario.pfx ++ scenario.callbackPrefix)).2 = true
    ∧ decodeCustom (CutPrefix (buildButton scenario.pfx scenario.nodePrefix
          scenario.callbackPrefix nodeA.ID clickButton).CallbackData
          (scenario.pfx ++ scenario.callbackPrefix)).1 = some ("A".toList, "Click".toList) :=
  C2_custom_action_roundtrip scenario nodeA clickButton (by decide) (by decide) (by decide)
    (by decide)

/-- C3 (fails on the code): on a payload that begins with the widget prefix
and the custom-action sub-prefix and has no `_` after them, `callback` fails
with an index out of range at `btnData[1]`; and on such a payload that names
the navigation button "Go" of node A, `callback` calls a nil handler. -/
theorem C3_callback_runtime_failure :
    HasPrefix (wPfx ++ aPfx ++ "menu".toList) scenario.pfx = true
    ∧ scenario.callback okBot (tap (wPfx ++ aPfx ++ "menu".toList)) =
        { calls := [Call.AnswerCallbackQuery "q1".toList]
          failure := some Failure.indexOutOfRange }
    ∧ HasPrefix (wPfx ++ aPfx ++ "A_Go".toList) scenario.pfx = true
    ∧ scenario.callback okBot (tap (wPfx ++ aPfx ++ "A_Go".toList)) =
        { calls := [Call.AnswerCallbackQuery "q1".toList]
          failure := some Failure.nilHandler } := by
  refine ⟨by decide, by decide, by decide, by decide⟩

/-- C4 (fails on the code): no node of the scenario has the ID "ghost", and on
the custom-action payload for the parent "ghost" and the label "Click"
`callback` reports the button-not-found error for "Click", and no
node-not-found error. -/
theorem C4_missing_parent_reports_button :
    (∀ M ∈ scenario.nodes, M.ID ≠ "ghost".toList)
    ∧ scenario.callback okBot (tap (wPfx ++ aPfx ++ "ghost".toList ++ ['_'] ++ "Click".toList)) =
        { calls := [Call.AnswerCallbackQuery "q1".toList,
                    Call.onError (DialogError.buttonNotFound "Click".toList)]
          failure := none }
    ∧ Call.onError (DialogError.nodeNotFound "ghost".toList) ∉
        (scenario.callback okBot
          (tap (wPfx ++ aPfx ++ "ghost".toList ++ ['_'] ++ "Click".toList))).calls := by
  refine ⟨by decide, by decide, by decide⟩

/-- C5 (as stated, false): over the node list with two nodes of ID "A", the
lookup of "A" returns the first of them, which is not the last. -/
theorem C5_counterexample :
    (New [dupFirst, dupLast] wPfx aPfx nPfx []).findNode "A".toList = (dupFirst, true)
    ∧ [dupFirst, dupLast].getLast? = some dupLast
    ∧ dupFirst.ID = dupLast.ID
    ∧ ((New [dupFirst, dupLast] wPfx aPfx nPfx []).findNode "A".toList).1 ≠ dupLast := by
  refine ⟨by decide, by decide, by decide, by decide⟩

/-- C5 (amended): when the node list given to `New` contains a node N and no
node before N in the list has N's ID, the lookup of that ID returns N, whatever
nodes with the same ID follow it (first occurrence wins). -/
theorem C5_findNode_first_wins (nodes pre post : List Node) (N : Node) (r1 r2 r3 : Str)
    (hnodes : nodes = pre ++ N :: post) (hpre : ∀ M ∈ pre, M.ID ≠ N.ID) :
    (New nodes r1 r2 r3 []).findNode N.ID = (N, true) := by
  subst hnodes
  exact findNodeIn_first N.ID pre post N rfl hpre

/-- C5 (amended), at the list of the two nodes with ID "A". -/
theorem C5_findNode_first_wins_witness :
    (New [dupFirst, dupLast] wPfx aPfx nPfx []).findNode dupFirst.ID = (dupFirst, true) :=
  C5_findNode_first_wins [dupFirst, dupLast] [] [dupLast] dupFirst wPfx aPfx nPfx rfl
    (by simp)

/-- C6 (as stated, false): the payload "B" does not begin with the widget
prefix and is the ID of node B, and `callback` sends node B's text "Away"; the
payload "zzz" does not begin with the widget prefix either, and `callback`
reports node-not-found for it. -/
theorem C6_counterexample :
    HasPrefix "B".toList scenario.pfx = false
    ∧ scenario.callback okBot (tap "B".toList) =
        { calls := [Call.AnswerCallbackQuery "q1".toList,
                    Call.SendMessage 1 "Away".toList none]
          failure := none }
    ∧ HasPrefix "zzz".toList scenario.pfx = false
    ∧ scenario.callback okBot (tap "zzz".toList) =
        { calls := [Call.AnswerCallbackQuery "q1".toList,
                    Call.onError (DialogError.nodeNotFound "zzz".toList)]
          failure := none } := by
  refine ⟨by decide, by decide, by decide, by decide⟩

/-- C6 (amended): on a payload that does not begin with the widget prefix,
`callback` invokes no button handler, and after the acknowledgment it looks
the whole payload up as a node ID: when no node has it, the one further call
is the node-not-found report for the payload and there is no runtime failure;
when a node has it and the update carries its message, the further calls are
the rendering of that node, one edit in the inline mode and one send
otherwise, with the report of its error, and there is no runtime failure. -/
theorem C6_foreign_payload_is_looked_up (d : Dialog) (b : Bot) (u : Update)
    (h : HasPrefix u.Data d.pfx = false) :
    (∀ c ∈ (d.callback b u).calls, c.isHandler = false)
    ∧ ((d.findNode u.Data).2 = false →
        d.callback b u =
          { calls := answer b u ++ [Call.onError (DialogError.nodeNotFound u.Data)]
            failure := none })
    ∧ (∀ m : CallbackMessage, u.Message = some m → (d.findNode u.Data).2 = true →
        d.callback b u =
          { calls := answer b u
              ++ ([if d.inline then
                    Call.EditMessageText m.ChatID m.ID (d.findNode u.Data).1.Text
                      ((d.findNode u.Data).1.buildKB d.pfx d.nodePrefix d.callbackPrefix
                        (d.findNode u.Data).1.ID)
                  else
                    Call.SendMessage m.ChatID (d.findNode u.Data).1.Text
                      ((d.findNode u.Data).1.buildKB d.pfx d.nodePrefix d.callbackPrefix
                        (d.findNode u.Data).1.ID)]
                ++ (match (if d.inline then b.editErr else b.sendErr) with
                    | some e => [Call.onError (DialogError.api e)]
                    | none => []))
            failure := none }) := by
  have hnav := HasPrefix_append_left u.Data d.pfx d.callbackPrefix h
  have hid : decodeNav d u.Data = u.Data := TrimPrefix_of_not u.Data d.pfx h
  refine ⟨?_, ?_, ?_⟩
  · intro c hc
    rw [callback_nav d b u hnav] at hc
    simp only [List.mem_append] at hc
    rcases hc with hc | hc
    · exact answer_not_handler b u c hc
    · unfold navBranch at hc
      cases hf : (d.findNode (decodeNav d u.Data)).2 with
      | false =>
        simp [hf] at hc
        subst hc
        rfl
      | true =>
        simp only [hf, Bool.not_true, Bool.false_eq_true, if_false] at hc
        exact renderNode_not_handler d b u _ c hc
  · intro hf
    have := callback_not_found d b u hnav (by rw [hid]; exact hf)
    rw [hid] at this
    exact this
  · intro m hm hf
    have hfind : d.findNode (decodeNav d u.Data) = ((d.findNode u.Data).1, true) := by
      rw [hid, ← hf]
    exact callback_found_with_message d b u _ m hnav hfind hm

/-- C6 (amended), at the payload "B" in the scenario. -/
theorem C6_foreign_payload_is_looked_up_witness :
    (∀ c ∈ (scenario.callback okBot (tap "B".toList)).calls, c.isHandler = false)
    ∧ ((scenario.findNode (tap "B".toList).Data).2 = false →
        scenario.callback okBot (tap "B".toList) =
          { calls := answer okBot (tap "B".toList)
              ++ [Call.onError (DialogError.nodeNotFound (tap "B".toList).Data)]
            failure := none })
    ∧ (∀ m : CallbackMessage, (tap "B".toList).Message = some m →
        (scenario.findNode (tap "B".toList).Data).2 = true →
        scenario.callback okBot (tap "B".toList) =
          { calls := answer okBot (tap "B".toList)
              ++ ([if scenario.inline then
                    Call.EditMessageText m.ChatID m.ID
                      (scenario.findNode (tap "B".toList).Data).1.Text
                      ((scenario.findNode (tap "B".toList).Data).1.buildKB scenario.pfx
                        scenario.nodePrefix scenario.callbackPrefix
                        (scenario.findNode (tap "B".toList).Data).1.ID)
                  else
                    Call.SendMessage m.ChatID (scenario.findNode (tap "B".toList).Data).1.Text
                      ((scenario.findNode (tap "B".toList).Data).1.buildKB scenario.pfx
                        scenario.nodePrefix scenario.callbackPrefix
                        (scenario.findNode (tap "B".toList).Data).1.ID)]
                ++ (match (if scenario.inline then okBot.editErr else okBot.sendErr) with
                    | some e => [Call.onError (DialogError.api e)]
                    | none => []))
            failure := none }) :=
  C6_foreign_payload_is_looked_up scenario okBot (tap "B".toList) (by decide)

/-- C7 (as stated, false): on the payload made of the widget prefix, the
custom-action sub-prefix and "A_Click_junk", `callback` invokes the handler of
the button "Click" of node A, although the payload is neither a navigation
payload for a node of the graph nor the custom-action payload of any node and
button label of the graph. -/
theorem C7_counterexample :
    scenario.callback okBot (tap (wPfx ++ aPfx ++ "A_Click_junk".toList)) =
        { calls := [Call.AnswerCallbackQuery "q1".toList,
                    Call.CallbackHandler 7 (tap (wPfx ++ aPfx ++ "A_Click_junk".toList))]
          failure := none }
    ∧ (∀ N ∈ scenario.nodes,
        wPfx ++ aPfx ++ "A_Click_junk".toList ≠ scenario.pfx ++ scenario.nodePrefix ++ N.ID)
    ∧ (∀ N ∈ scenario.nodes, ∀ row ∈ N.Keyboard, ∀ B ∈ row,
        wPfx ++ aPfx ++ "A_Click_junk".toList
          ≠ scenario.pfx ++ scenario.callbackPrefix ++ N.ID ++ ['_'] ++ B.Text) := by
  refine ⟨by decide, by decide, by decide⟩

/-- C7 (amended): whenever `callback` renders a node or invokes a button
handler, either the payload is the widget prefix, the custom-action
sub-prefix, the ID of a node of the graph, `_`, the text of a button of that
node with a non-nil handler, and a rest that is empty or begins with `_`, and
the only call after the acknowledgment is that handler on the update; or the
payload does not begin with the widget prefix and the custom-action
sub-prefix, and the calls after the acknowledgment are the rendering of a node
of the graph. -/
theorem C7_accepted_payloads (d : Dialog) (b : Bot) (u : Update)
    (h : ∃ c ∈ (d.callback b u).calls, c.isRender = true ∨ c.isHandler = true) :
    (∃ N ∈ d.nodes, ∃ row ∈ N.Keyboard, ∃ B ∈ row, ∃ hd rest,
        B.CallbackHandler = some hd
        ∧ u.Data = d.pfx ++ d.callbackPrefix ++ N.ID ++ ['_'] ++ B.Text ++ rest
        ∧ (rest = [] ∨ ∃ r, rest = '_' :: r)
        ∧ (d.callback b u).calls = answer b u ++ [Call.CallbackHandler hd u])
    ∨ (HasPrefix u.Data (d.pfx ++ d.callbackPrefix) = false
        ∧ ∃ N ∈ d.nodes, ∃ m, u.Message = some m
            ∧ (d.callback b u).calls = answer b u ++ (renderNode d b u N).calls) := by
  obtain ⟨c, hc, hk⟩ := h
  have hans : c ∉ answer b u := by
    intro hmem
    have h1 := answer_not_render b u c hmem
    have h2 := answer_not_handler b u c hmem
    rcases hk with hk | hk
    · rw [h1] at hk
      cases hk
    · rw [h2] at hk
      cases hk
  cases hp : HasPrefix u.Data (d.pfx ++ d.callbackPrefix) with
  | true =>
    left
    obtain ⟨Y, hY⟩ := (HasPrefix_iff _ _).1 hp
    have hcb := callback_custom d b u Y hY
    rw [hcb] at hc ⊢
    simp only [List.mem_append] at hc
    rcases hc with hc | hc
    · exact absurd hc hans
    · obtain ⟨N, hN, row, hrow, B, hB, hd, rest, hh, hYeq, hrest, hrun⟩ :=
        customBranch_handler d u Y c hc hk
      refine ⟨N, hN, row, hrow, B, hB, hd, rest, hh, ?_, hrest, ?_⟩
      · rw [hY, hYeq]
        simp
      · rw [hrun]
  | false =>
    right
    refine ⟨rfl, ?_⟩
    have hcb := callback_nav d b u hp
    rw [hcb] at hc ⊢
    simp only [List.mem_append] at hc
    rcases hc with hc | hc
    · exact absurd hc hans
    · unfold navBranch at hc ⊢
      cases hf : (d.findNode (decodeNav d u.Data)).2 with
      | false =>
        simp [hf] at hc
        subst hc
        simp [Call.isRender, Call.isHandler] at hk
      | true =>
        simp only [hf, Bool.not_true, Bool.false_eq_true, if_false] at hc ⊢
        obtain ⟨m, hm⟩ := renderNode_calls_message d b u _ c hc
        exact ⟨(d.findNode (decodeNav d u.Data)).1,
          (findNodeIn_found _ d.nodes hf).1, m, hm, rfl⟩

/-- C7 (amended), at the payload with "A_Click_junk" in the scenario. -/
theorem C7_accepted_payloads_witness :
    (∃ N ∈ scenario.nodes, ∃ row ∈ N.Keyboard, ∃ B ∈ row, ∃ hd rest,
        B.CallbackHandler = some hd
        ∧ (tap (wPfx ++ aPfx ++ "A_Click_junk".toList)).Data
            = scenario.pfx ++ scenario.callbackPrefix ++ N.ID ++ ['_'] ++ B.Text ++ rest
        ∧ (rest = [] ∨ ∃ r, rest = '_' :: r)
        ∧ (scenario.callback okBot (tap (wPfx ++ aPfx ++ "A_Click_junk".toList))).calls
            = answer okBot (tap (wPfx ++ aPfx ++ "A_Click_junk".toList))
              ++ [Call.CallbackHandler hd (tap (wPfx ++ aPfx ++ "A_Click_junk".toList))])
    ∨ (HasPrefix (tap (wPfx ++ aPfx ++ "A_Click_junk".toList)).Data
          (scenario.pfx ++ scenario.callbackPrefix) = false
        ∧ ∃ N ∈ scenario.nodes, ∃ m,
          (tap (wPfx ++ aPfx ++ "A_Click_junk".toList)).Message = some m
          ∧ (scenario.callback okBot (tap (wPfx ++ aPfx ++ "A_Click_junk".toList))).calls
            = answer okBot (tap (wPfx ++ aPfx ++ "A_Click_junk".toList))
              ++ (renderNode scenario okBot (tap (wPfx ++ aPfx ++ "A_Click_junk".toList))
                    N).calls) :=
  C7_accepted_payloads scenario okBot (tap (wPfx ++ aPfx ++ "A_Click_junk".toList))
    ⟨Call.CallbackHandler 7 (tap (wPfx ++ aPfx ++ "A_Click_junk".toList)), by decide,
      Or.inr rfl⟩

/-- C8: for a node with a non-empty keyboard and any prefix arguments,
`buildKB` returns a keyboard with as many rows as the node's, each row as long
as the node's row, and the button at each position carries the text of the
node's button at that position and one datum: the URL and no callback data
when the URL is non-empty; else the custom-action payload and no URL when the
handler is non-nil; else the navigation payload and no URL. -/
theorem C8_buildKB_materializes (n : Node) (pfx nodePrefix callbackPrefix parentNodeID : Str)
    (h : n.Keyboard ≠ []) :
    ∃ kb : InlineKeyboardMarkup, n.buildKB pfx nodePrefix callbackPrefix parentNodeID = some kb
      ∧ kb.InlineKeyboard.length = n.Keyboard.length
      ∧ ∀ (i : Nat) (row : List Button), n.Keyboard[i]? = some row →
          ∃ out : List InlineKeyboardButton, kb.InlineKeyboard[i]? = some out
            ∧ out.length = row.length
            ∧ ∀ (j : Nat) (btn : Button), row[j]? = some btn →
                ∃ ob : InlineKeyboardButton, out[j]? = some ob
                  ∧ ob.Text = btn.Text
                  ∧ (btn.URL ≠ [] → ob.URL = btn.URL ∧ ob.CallbackData = [])
                  ∧ (btn.URL = [] → btn.CallbackHandler ≠ none →
                      ob.CallbackData
                          = pfx ++ callbackPrefix ++ parentNodeID ++ ['_'] ++ btn.Text
                        ∧ ob.URL = [])
                  ∧ (btn.URL = [] → btn.CallbackHandler = none →
                      ob.CallbackData = pfx ++ nodePrefix ++ btn.NodeID ∧ ob.URL = []) := by
  have hlen : n.Keyboard.length ≠ 0 := fun e => h (List.length_eq_zero.1 e)
  have hkb : n.buildKB pfx nodePrefix callbackPrefix parentNodeID
      = some { InlineKeyboard := n.Keyboard.map fun row =>
          row.map (buildButton pfx nodePrefix callbackPrefix parentNodeID) } := by
    simp only [Node.buildKB, if_neg hlen]
  refine ⟨_, hkb, by simp, ?_⟩
  intro i row hrow
  refine ⟨row.map (buildButton pfx nodePrefix callbackPrefix parentNodeID), ?_, by simp, ?_⟩
  · simp [hrow]
  · intro j btn hbtn
    refine ⟨buildButton pfx nodePrefix callbackPrefix parentNodeID btn, by simp [hbtn], ?_, ?_,
      ?_, ?_⟩
    · unfold buildButton
      split
      · rfl
      · split <;> rfl
    · intro hurl
      simp [buildButton, hurl]
    · intro hurl hh
      simp [buildButton, hurl, hh]
    · intro hurl hh
      simp [buildButton, hurl, hh]

/-- C8, at node A of the scenario with its own prefixes. -/
theorem C8_buildKB_materializes_witness :
    ∃ kb : InlineKeyboardMarkup, nodeA.buildKB wPfx nPfx aPfx nodeA.ID = some kb
      ∧ kb.InlineKeyboard.length = nodeA.Keyboard.length
      ∧ ∀ (i : Nat) (row : List Button), nodeA.Keyboard[i]? = some row →
          ∃ out : List InlineKeyboardButton, kb.InlineKeyboard[i]? = some out
            ∧ out.length = row.length
            ∧ ∀ (j : Nat) (btn : Button), row[j]? = some btn →
                ∃ ob : InlineKeyboardButton, out[j]? = some ob
                  ∧ ob.Text = btn.Text
                  ∧ (btn.URL ≠ [] → ob.URL = btn.URL ∧ ob.CallbackData = [])
                  ∧ (btn.URL = [] → btn.CallbackHandler ≠ none →
                      ob.CallbackData = wPfx ++ aPfx ++ nodeA.ID ++ ['_'] ++ btn.Text
                        ∧ ob.URL = [])
                  ∧ (btn.URL = [] → btn.CallbackHandler = none →
                      ob.CallbackData = wPfx ++ nPfx ++ btn.NodeID ∧ ob.URL = []) :=
  C8_buildKB_materializes nodeA wPfx nPfx aPfx nodeA.ID (by decide)

/-- C9: when the navigation and custom-action sub-prefixes of a dialog differ
and have the same length, a navigation payload differs from every
custom-action payload; `callback` does not take the custom-action branch on a
navigation payload and runs the navigation branch on it, and it takes the
custom-action branch on a custom-action payload and runs that branch on the
rest. -/
theorem C9_address_spaces_disjoint (d : Dialog) (X Y : Str)
    (hne : d.nodePrefix ≠ d.callbackPrefix)
    (hlen : d.nodePrefix.length = d.callbackPrefix.length) :
    d.pfx ++ d.nodePrefix ++ X ≠ d.pfx ++ d.callbackPrefix ++ Y
    ∧ CutPrefix (d.pfx ++ d.nodePrefix ++ X) (d.pfx ++ d.callbackPrefix)
        = (d.pfx ++ d.nodePrefix ++ X, false)
    ∧ CutPrefix (d.pfx ++ d.callbackPrefix ++ Y) (d.pfx ++ d.callbackPrefix) = (Y, true)
    ∧ (∀ b u, u.Data = d.pfx ++ d.nodePrefix ++ X →
        d.callback b u =
          { calls := answer b u ++ (navBranch d b u).calls
            failure := (navBranch d b u).failure })
    ∧ (∀ b u, u.Data = d.pfx ++ d.callbackPrefix ++ Y →
        d.callback b u =
          { calls := answer b u ++ (customBranch d u Y).calls
            failure := (customBranch d u Y).failure }) := by
  have hsplit : ∀ t, d.pfx ++ d.nodePrefix ++ X ≠ d.pfx ++ d.callbackPrefix ++ t := by
    intro t e
    rw [List.append_assoc, List.append_assoc] at e
    have e2 := List.append_cancel_left e
    exact hne (List.append_inj e2 hlen).1
  have hnot : HasPrefix (d.pfx ++ d.nodePrefix ++ X) (d.pfx ++ d.callbackPrefix) = false := by
    cases hp : HasPrefix (d.pfx ++ d.nodePrefix ++ X) (d.pfx ++ d.callbackPrefix) with
    | false => rfl
    | true =>
      obtain ⟨t, ht⟩ := (HasPrefix_iff _ _).1 hp
      exact absurd ht (hsplit t)
  refine ⟨hsplit Y, CutPrefix_of_not _ _ hnot, CutPrefix_append _ _, ?_, ?_⟩
  · intro b u hu
    exact callback_nav d b u (by rw [hu]; exact hnot)
  · intro b u hu
    exact callback_custom d b u Y hu

/-- C9, at the scenario dialog with the payloads for "B" and "A_Click". -/
theorem C9_address_spaces_disjoint_witness :
    scenario.pfx ++ scenario.nodePrefix ++ "B".toList
        ≠ scenario.pfx ++ scenario.callbackPrefix ++ "A_Click".toList
    ∧ CutPrefix (scenario.pfx ++ scenario.nodePrefix ++ "B".toList)
          (scenario.pfx ++ scenario.callbackPrefix)
        = (scenario.pfx ++ scenario.nodePrefix ++ "B".toList, false)
    ∧ CutPrefix (scenario.pfx ++ scenario.callbackPrefix ++ "A_Click".toList)
          (scenario.pfx ++ scenario.callbackPrefix) = ("A_Click".toList, true)
    ∧ (∀ b u, u.Data = scenario.pfx ++ scenario.nodePrefix ++ "B".toList →
        scenario.callback b u =
          { calls := answer b u ++ (navBranch scenario b u).calls
            failure := (navBranch scenario b u).failure })
    ∧ (∀ b u, u.Data = scenario.pfx ++ scenario.callbackPrefix ++ "A_Click".toList →
        scenario.callback b u =
          { calls := answer b u ++ (customBranch scenario u "A_Click".toList).calls
            failure := (customBranch scenario u "A_Click".toList).failure }) :=
  C9_address_spaces_disjoint scenario "B".toList "A_Click".toList (by decide) (by decide)

/-- C10: for a node N of the dialog whose ID contains no `_` and is the ID of
no other node, and a custom-action button B of N (empty URL, handler h) whose
label contains no `_` and is carried by no button before B in row-major order,
`callback` on the callback data emitted for B acknowledges, invokes h once
with the update, and makes no other call: no send, no edit, no lookup error,
no runtime failure. -/
theorem C10_custom_action_dispatch (d : Dialog) (b : Bot) (u : Update) (N : Node)
    (rowsBefore rowsAfter : List (List Button)) (pre post : List Button) (B : Button)
    (hd : HandlerFunc)
    (hN : N ∈ d.nodes) (huniq : ∀ M ∈ d.nodes, M.ID = N.ID → M = N) (hID : '_' ∉ N.ID)
    (hKb : N.Keyboard = rowsBefore ++ (pre ++ B :: post) :: rowsAfter)
    (hrows : ∀ row ∈ rowsBefore, ∀ x ∈ row, x.Text ≠ B.Text)
    (hpre : ∀ x ∈ pre, x.Text ≠ B.Text)
    (hURL : B.URL = []) (hH : B.CallbackHandler = some hd) (hText : '_' ∉ B.Text)
    (hData : u.Data = (buildButton d.pfx d.nodePrefix d.callbackPrefix N.ID B).CallbackData) :
    d.callback b u = { calls := answer b u ++ [Call.CallbackHandler hd u], failure := none }
    ∧ (d.callback b u).calls.filter Call.isHandler = [Call.CallbackHandler hd u]
    ∧ (∀ c ∈ (d.callback b u).calls, c.isRender = false ∧ c.isLookupError = false) := by
  have hne : B.CallbackHandler ≠ none := by simp [hH]
  obtain ⟨hdata, _, _⟩ := customPayload_roundtrip d N B hURL hne hText hID
  have hY : u.Data = d.pfx ++ d.callbackPrefix ++ (N.ID ++ ['_'] ++ B.Text) := by
    rw [hData, hdata]
    simp
  have hbranch : customBranch d u (N.ID ++ ['_'] ++ B.Text)
      = { calls := [Call.CallbackHandler hd u], failure := none } := by
    unfold customBranch
    rw [decodeCustom_pair N.ID B.Text hID hText]
    have hnode : d.findNode N.ID = (N, true) := findNodeIn_unique d.nodes N hN huniq
    have hbtn : N.findButton B.Text = (B, true) := by
      unfold Node.findButton
      rw [hKb]
      exact findButtonIn_first B.Text rowsBefore rowsAfter pre post B rfl hrows hpre
    simp [hnode, hbtn, hH]
  have hrun := callback_custom d b u _ hY
  rw [hbranch] at hrun
  rw [hrun]
  refine ⟨rfl, ?_, ?_⟩
  · rw [List.filter_append]
    have h0 : (answer b u).filter Call.isHandler = [] := by
      rw [List.filter_eq_nil_iff]
      intro c hc
      simp [answer_not_handler b u c hc]
    rw [h0]
    rfl
  · intro c hc
    simp only [List.mem_append, List.mem_singleton] at hc
    rcases hc with hc | hc
    · exact ⟨answer_not_render b u c hc, answer_not_lookupError b u c hc⟩
    · subst hc
      exact ⟨rfl, rfl⟩

/-- C10, at the button "Click" of node A in the scenario. -/
theorem C10_custom_action_dispatch_witness :
    scenario.callback okBot (tap (wPfx ++ aPfx ++ "A_Click".toList))
        = { calls := answer okBot (tap (wPfx ++ aPfx ++ "A_Click".toList))
              ++ [Call.CallbackHandler 7 (tap (wPfx ++ aPfx ++ "A_Click".toList))]
            failure := none }
    ∧ (scenario.callback okBot (tap (wPfx ++ aPfx ++ "A_Click".toList))).calls.filter
          Call.isHandler
        = [Call.CallbackHandler 7 (tap (wPfx ++ aPfx ++ "A_Click".toList))]
    ∧ (∀ c ∈ (scenario.callback okBot (tap (wPfx ++ aPfx ++ "A_Click".toList))).calls,
        c.isRender = false ∧ c.isLookupError = false) :=
  C10_custom_action_dispatch scenario okBot (tap (wPfx ++ aPfx ++ "A_Click".toList)) nodeA
    [] [] [goButton] [] clickButton 7 (by decide) (by decide) (by decide) rfl (by simp)
    (by decide) rfl rfl (by decide) (by decide)

/-- C11: when no node of the dialog has the ID, `Show` registers the prefix
route, sends no message and returns no message with the node-not-found error
for the ID; when some node has the ID, `Show` registers the route, sends one
message with the text and the keyboard of the node that `findNode` returns,
which is a node of the dialog with that ID, and returns what `SendMessage`
returned.  Neither case depends on the render mode. -/
theorem C11_Show_start_node (d : Dialog) (b : ShowBot) (chatID : Int) (nodeID : Str) :
    ((∀ M ∈ d.nodes, M.ID ≠ nodeID) →
        (d.Show b chatID nodeID).message = none
        ∧ (d.Show b chatID nodeID).err = some (DialogError.nodeNotFound nodeID)
        ∧ (d.Show b chatID nodeID).calls = [ShowCall.RegisterHandler d.pfx]
        ∧ ∀ c ∈ (d.Show b chatID nodeID).calls, c.isSend = false)
    ∧ ((∃ M ∈ d.nodes, M.ID = nodeID) →
        (d.findNode nodeID).1 ∈ d.nodes
        ∧ (d.findNode nodeID).1.ID = nodeID
        ∧ (d.Show b chatID nodeID).calls =
            [ShowCall.RegisterHandler d.pfx,
             ShowCall.SendMessage chatID (d.findNode nodeID).1.Text
               ((d.findNode nodeID).1.buildKB d.pfx d.nodePrefix d.callbackPrefix
                 (d.findNode nodeID).1.ID)]
        ∧ (d.Show b chatID nodeID).calls.filter ShowCall.isSend =
            [ShowCall.SendMessage chatID (d.findNode nodeID).1.Text
               ((d.findNode nodeID).1.buildKB d.pfx d.nodePrefix d.callbackPrefix
                 (d.findNode nodeID).1.ID)]
        ∧ (d.Show b chatID nodeID).message = b.sendMessage
        ∧ (d.Show b chatID nodeID).err = b.sendErr.map DialogError.api) := by
  constructor
  · intro h
    have hf : findNodeIn nodeID d.nodes = ({ ID := [], Text := [], Keyboard := [] }, false) :=
      findNodeIn_absent nodeID d.nodes h
    simp [Dialog.Show, Dialog.findNode, hf, ShowCall.isSend]
  · intro h
    have hf : (findNodeIn nodeID d.nodes).2 = true := findNodeIn_of_mem nodeID d.nodes h
    obtain ⟨hmem, hid⟩ := findNodeIn_found nodeID d.nodes hf
    refine ⟨hmem, hid, ?_, ?_, ?_, ?_⟩ <;>
      simp [Dialog.Show, Dialog.findNode, Dialog.showNode, hf, ShowCall.isSend]

/-- C11, at the start node "A" of the scenario. -/
theorem C11_Show_start_node_witness :
    (scenario.findNode "A".toList).1 ∈ scenario.nodes
    ∧ (scenario.findNode "A".toList).1.ID = "A".toList
    ∧ (scenario.Show okShowBot 1 "A".toList).calls =
        [ShowCall.RegisterHandler scenario.pfx,
         ShowCall.SendMessage 1 (scenario.findNode "A".toList).1.Text
           ((scenario.findNode "A".toList).1.buildKB scenario.pfx scenario.nodePrefix
             scenario.callbackPrefix (scenario.findNode "A".toList).1.ID)]
    ∧ (scenario.Show okShowBot 1 "A".toList).calls.filter ShowCall.isSend =
        [ShowCall.SendMessage 1 (scenario.findNode "A".toList).1.Text
           ((scenario.findNode "A".toList).1.buildKB scenario.pfx scenario.nodePrefix
             scenario.callbackPrefix (scenario.findNode "A".toList).1.ID)]
    ∧ (scenario.Show okShowBot 1 "A".toList).message = okShowBot.sendMessage
    ∧ (scenario.Show okShowBot 1 "A".toList).err = okShowBot.sendErr.map DialogError.api :=
  (C11_Show_start_node scenario okShowBot 1 "A".toList).2 ⟨nodeA, by decide, by decide⟩

/-- C12: on every run `callback` first makes the acknowledgment call, and
makes it once; then it reports the acknowledgment's error, if any, and its
false result, if so; and the calls after that and the runtime failure are the
same for every outcome of the acknowledgment. -/
theorem C12_acknowledgment_unconditional (d : Dialog) (b : Bot) (u : Update) :
    ∃ rest : Run,
      (∀ c ∈ rest.calls, c.isAnswer = false)
      ∧ ((d.callback b u).calls.filter Call.isAnswer
          = [Call.AnswerCallbackQuery u.CallbackQueryID])
      ∧ (d.callback b u).calls.head? = some (Call.AnswerCallbackQuery u.CallbackQueryID)
      ∧ ∀ b2 : Bot, b2.editErr = b.editErr → b2.sendErr = b.sendErr →
          d.callback b2 u =
            { calls := Call.AnswerCallbackQuery u.CallbackQueryID ::
                ((match b2.answerErr with
                  | some e => [Call.onError (DialogError.api e)]
                  | none => [])
                ++ (if b2.answerOk then [] else [Call.onError DialogError.answerFailed])
                ++ rest.calls)
              failure := rest.failure } := by
  obtain ⟨rest, hb, hrest, hall⟩ := callback_eq_answer_append d b u
  refine ⟨rest, hrest, ?_, ?_, ?_⟩
  · rw [hb]
    have hnil : rest.calls.filter Call.isAnswer = [] := by
      rw [List.filter_eq_nil_iff]
      intro c hc
      simp [hrest c hc]
    obtain ⟨ok, err, e, s⟩ := b
    cases ok <;> cases err <;> simp [answer, List.filter_append, hnil, List.filter, Call.isAnswer]
  · rw [hb, answer_eq]
    rfl
  · intro b2 he hs
    rw [hall b2 he hs, answer_eq]
    simp

/-- C13 (as stated, false): no node of the dialog has the ID "X", and the
navigation payload for "X" does not begin with the widget prefix and the
custom-action sub-prefix; `callback` looks up the navigation sub-prefix
followed by "X", which is the ID of the dialog's node, and sends that node's
text instead of reporting node-not-found. -/
theorem C13_counterexample :
    (∀ M ∈ hiddenDialog.nodes, M.ID ≠ "X".toList)
    ∧ HasPrefix (hiddenDialog.pfx ++ hiddenDialog.nodePrefix ++ "X".toList)
        (hiddenDialog.pfx ++ hiddenDialog.callbackPrefix) = false
    ∧ hiddenDialog.callback okBot
        (tap (hiddenDialog.pfx ++ hiddenDialog.nodePrefix ++ "X".toList)) =
        { calls := [Call.AnswerCallbackQuery "q1".toList,
                    Call.SendMessage 1 "Hidden".toList none]
          failure := none } := by
  refine ⟨by decide, by decide, by decide⟩

/-- C13 (amended): on a navigation payload made of the widget prefix, the
navigation sub-prefix and X, which does not begin with the widget prefix and
the custom-action sub-prefix, when neither X nor the navigation sub-prefix
followed by X is the ID of a node of the dialog, `callback` reports one
node-not-found error after the acknowledgment, has no runtime failure, and
makes no send, no edit and no handler call. -/
theorem C13_unknown_node_reported (d : Dialog) (b : Bot) (u : Update) (X : Str)
    (hu : u.Data = d.pfx ++ d.nodePrefix ++ X)
    (hnav : HasPrefix (d.pfx ++ d.nodePrefix ++ X) (d.pfx ++ d.callbackPrefix) = false)
    (hX : ∀ N ∈ d.nodes, N.ID ≠ X)
    (hfresh : ∀ N ∈ d.nodes, N.ID ≠ d.nodePrefix ++ X) :
    (∃ id, d.callback b u =
        { calls := answer b u ++ [Call.onError (DialogError.nodeNotFound id)]
          failure := none })
    ∧ (∀ c ∈ (d.callback b u).calls, c.isRender = false ∧ c.isHandler = false)
    ∧ ((d.findNode X).2 = false) := by
  have hnav2 : HasPrefix u.Data (d.pfx ++ d.callbackPrefix) = false := by
    rw [hu]
    exact hnav
  have hid : decodeNav d u.Data = d.nodePrefix ++ X := by
    rw [hu]
    exact decodeNav_emitted d X
  have hf : (d.findNode (decodeNav d u.Data)).2 = false := by
    rw [hid]
    exact (findNodeIn_false_iff _ d.nodes).2 hfresh
  have hrun := callback_not_found d b u hnav2 hf
  refine ⟨⟨_, hrun⟩, ?_, (findNodeIn_false_iff X d.nodes).2 hX⟩
  intro c hc
  rw [hrun] at hc
  simp only [List.mem_append, List.mem_singleton] at hc
  rcases hc with hc | hc
  · exact ⟨answer_not_render b u c hc, answer_not_handler b u c hc⟩
  · subst hc
    exact ⟨rfl, rfl⟩

/-- C13 (amended), at the navigation payload for "Z" in the scenario. -/
theorem C13_unknown_node_reported_witness :
    (∃ id, scenario.callback okBot (tap (wPfx ++ nPfx ++ "Z".toList)) =
        { calls := answer okBot (tap (wPfx ++ nPfx ++ "Z".toList))
            ++ [Call.onError (DialogError.nodeNotFound id)]
          failure := none })
    ∧ (∀ c ∈ (scenario.callback okBot (tap (wPfx ++ nPfx ++ "Z".toList))).calls,
        c.isRender = false ∧ c.isHandler = false)
    ∧ ((scenario.findNode "Z".toList).2 = false) :=
  C13_unknown_node_reported scenario okBot (tap (wPfx ++ nPfx ++ "Z".toList)) "Z".toList rfl
    (by decide) (by decide) (by decide)

/-- C14 (fails on the code): the payload made of the widget prefix and "B"
does not take the custom-action branch and the navigation lookup finds node
B; when the message of the callback query is inaccessible, `callback` fails
with a nil dereference after the acknowledgment and makes no edit and no
send, in the resend mode and in the inline mode; with the message present it
makes the one send, or the one edit. -/
theorem C14_inaccessible_message_fails :
    HasPrefix (tapInaccessible (wPfx ++ "B".toList)).Data
        (scenario.pfx ++ scenario.callbackPrefix) = false
    ∧ scenario.findNode (decodeNav scenario (tapInaccessible (wPfx ++ "B".toList)).Data)
        = (nodeB, true)
    ∧ scenario.callback okBot (tapInaccessible (wPfx ++ "B".toList)) =
        { calls := [Call.AnswerCallbackQuery "q1".toList]
          failure := some Failure.nilMessage }
    ∧ (New [nodeA, nodeB] wPfx aPfx nPfx [Inline]).callback okBot
          (tapInaccessible (wPfx ++ "B".toList)) =
        { calls := [Call.AnswerCallbackQuery "q1".toList]
          failure := some Failure.nilMessage }
    ∧ scenario.callback okBot (tap (wPfx ++ "B".toList)) =
        { calls := [Call.AnswerCallbackQuery "q1".toList,
                    Call.SendMessage 1 "Away".toList none]
          failure := none }
    ∧ (New [nodeA, nodeB] wPfx aPfx nPfx [Inline]).callback okBot (tap (wPfx ++ "B".toList)) =
        { calls := [Call.AnswerCallbackQuery "q1".toList,
                    Call.EditMessageText 1 2 "Away".toList none]
          failure := none } := by
  refine ⟨by decide, by decide, by decide, by decide, by decide, by decide⟩

/-- C15: `findButton` reports not-found exactly when no button in any row of
the keyboard has the text, and then returns the zero button; when it reports
found, the button it returns has the text and stands at a position (row index
i, column index j) such that every button with the text stands in a later row,
or in row i at column j or later. -/
theorem C15_findButton_first_occurrence (node : Node) (text : Str) :
    ((node.findButton text).2 = false ↔ ∀ row ∈ node.Keyboard, ∀ b ∈ row, b.Text ≠ text)
    ∧ ((node.findButton text).2 = false →
        (node.findButton text).1 = { Text := [], NodeID := [], URL := [], CallbackHandler := none })
    ∧ ((node.findButton text).2 = true →
        (node.findButton text).1.Text = text
        ∧ ∃ (i j : Nat) (row : List Button), node.Keyboard[i]? = some row
            ∧ row[j]? = some (node.findButton text).1
            ∧ ∀ (i2 j2 : Nat) (row2 : List Button) (x : Button),
                node.Keyboard[i2]? = some row2 → row2[j2]? = some x → x.Text = text →
                  i < i2 ∨ (i = i2 ∧ j ≤ j2)) := by
  refine ⟨findButtonIn_false_iff text node.Keyboard, ?_, ?_⟩
  · intro h
    unfold Node.findButton at h ⊢
    generalize node.Keyboard = rows at h ⊢
    induction rows with
    | nil => rfl
    | cons row rest ih =>
      cases hrow : findButtonInRow text row with
      | some B => simp [findButtonIn, hrow] at h
      | none =>
        simp only [findButtonIn, hrow] at h ⊢
        exact ih h
  · intro h
    exact ⟨(findButtonIn_found text node.Keyboard h).2, findButtonIn_least text node.Keyboard h⟩

/-- C16: for all prefix arguments `buildKB` returns the nil reply markup
exactly when the keyboard of the node has no row, and an inline keyboard
markup exactly when it has at least one row. -/
theorem C16_buildKB_empty_layout (n : Node) (pfx nodePrefix callbackPrefix parentNodeID : Str) :
    (n.buildKB pfx nodePrefix callbackPrefix parentNodeID = none ↔ n.Keyboard.length = 0)
    ∧ ((∃ kb, n.buildKB pfx nodePrefix callbackPrefix parentNodeID = some kb)
        ↔ 1 ≤ n.Keyboard.length) := by
  unfold Node.buildKB
  by_cases h : n.Keyboard.length = 0
  · simp [h]
  · simp only [if_neg h]
    refine ⟨by simp [h], ?_⟩
    constructor
    · intro _
      exact Nat.one_le_iff_ne_zero.2 h
    · intro _
      exact ⟨_, rfl⟩

/-- C17 (as stated, false): for the rest "A_Click_more" after the widget
prefix and the custom-action sub-prefix, `callback` decodes the parent "A" and
the label "Click", not the label "Click_more", and invokes the handler of the
button "Click". -/
theorem C17_counterexample :
    '_' ∈ "A_Click_more".toList
    ∧ CutPrefix (scenario.pfx ++ scenario.callbackPrefix ++ "A_Click_more".toList)
        (scenario.pfx ++ scenario.callbackPrefix) = ("A_Click_more".toList, true)
    ∧ decodeCustom "A_Click_more".toList = some ("A".toList, "Click".toList)
    ∧ decodeCustom "A_Click_more".toList ≠ some ("A".toList, "Click_more".toList)
    ∧ scenario.callback okBot
        (tap (scenario.pfx ++ scenario.callbackPrefix ++ "A_Click_more".toList)) =
        { calls := [Call.AnswerCallbackQuery "q1".toList,
                    Call.CallbackHandler 7
                      (tap (scenario.pfx ++ scenario.callbackPrefix ++ "A_Click_more".toList))]
          failure := none } := by
  refine ⟨by decide, by decide, by decide, by decide, by decide⟩

/-- C17 (amended): for a payload made of the widget prefix, the custom-action
sub-prefix and a rest R that contains `_`, `callback` takes the custom-action
branch on R and decodes the parent node ID as the part of R before its first
`_`, and the label as the part of R after that first `_` up to the next `_`,
or to the end of R when there is no other. -/
theorem C17_label_ends_at_next_separator (d : Dialog) (R : Str) (h : '_' ∈ R) :
    CutPrefix (d.pfx ++ d.callbackPrefix ++ R) (d.pfx ++ d.callbackPrefix) = (R, true)
    ∧ decodeCustom R =
        some (R.takeWhile (fun c => !decide (c = '_')),
          ((R.dropWhile (fun c => !decide (c = '_'))).drop 1).takeWhile
            (fun c => !decide (c = '_')))
    ∧ (∀ (b : Bot) (u : Update), u.Data = d.pfx ++ d.callbackPrefix ++ R →
        d.callback b u =
          { calls := answer b u ++ (customBranch d u R).calls
            failure := (customBranch d u R).failure }) :=
  ⟨CutPrefix_append _ _, decodeCustom_of_mem R h, fun b u hu => callback_custom d b u R hu⟩

/-- C17 (amended), at the rest "A_Click_more" in the scenario. -/
theorem C17_label_ends_at_next_separator_witness :
    CutPrefix (scenario.pfx ++ scenario.callbackPrefix ++ "A_Click_more".toList)
        (scenario.pfx ++ scenario.callbackPrefix) = ("A_Click_more".toList, true)
    ∧ decodeCustom "A_Click_more".toList =
        some ("A_Click_more".toList.takeWhile (fun c => !decide (c = '_')),
          (("A_Click_more".toList.dropWhile (fun c => !decide (c = '_'))).drop 1).takeWhile
            (fun c => !decide (c = '_')))
    ∧ (∀ (b : Bot) (u : Update),
        u.Data = scenario.pfx ++ scenario.callbackPrefix ++ "A_Click_more".toList →
        scenario.callback b u =
          { calls := answer b u ++ (customBranch scenario u "A_Click_more".toList).calls
            failure := (customBranch scenario u "A_Click_more".toList).failure }) :=
  C17_label_ends_at_next_separator scenario "A_Click_more".toList (by decide)

/-- C18: the computation of `callback` on the dialog returns the run of
`callback` and ends in the dialog it started from, and so does the computation
of `findNode`; the computation of `findButton` ends in the node it started
from; the computation of `Show` ends in the dialog with `callbackHandlerID`
set to the ID that `RegisterHandler` returned and every other field as it was;
and after any sequence of `Show` calls and callback queries the fields `data`,
`prefix`, `nodePrefix`, `callbackPrefix`, `onError`, `nodes` and `inline` are
those the dialog had before the sequence. -/
theorem C18_read_only_after_construction (d : Dialog) (events : List Event) :
    (∀ (b : Bot) (u : Update), Id.run ((callbackM b u).run d) = (d.callback b u, d))
    ∧ (∀ id : Str, Id.run ((findNodeM id).run d) = (d.findNode id, d))
    ∧ (∀ (text : Str) (node : Node),
        Id.run ((findButtonM text).run node) = (node.findButton text, node))
    ∧ (∀ (b : ShowBot) (chatID : Int) (nodeID : Str),
        (Id.run ((ShowM b chatID nodeID).run d)).2 = { d with callbackHandlerID := b.handlerID }
        ∧ (d.Show b chatID nodeID).dialog = { d with callbackHandlerID := b.handlerID })
    ∧ (∀ (b : Bot) (u : Update), d.after (Event.callback b u) = d)
    ∧ (d.afterAll events).data = d.data
    ∧ (d.afterAll events).pfx = d.pfx
    ∧ (d.afterAll events).nodePrefix = d.nodePrefix
    ∧ (d.afterAll events).callbackPrefix = d.callbackPrefix
    ∧ (d.afterAll events).onError = d.onError
    ∧ (d.afterAll events).nodes = d.nodes
    ∧ (d.afterAll events).inline = d.inline := by
  have hcb : ∀ (d : Dialog) (b : Bot) (u : Update), d.after (Event.callback b u) = d := by
    intro d b u
    simp only [Dialog.after, callbackM_run]
  have hshow : ∀ (d : Dialog) (b : ShowBot) (chatID : Int) (nodeID : Str),
      d.after (Event.show b chatID nodeID) = { d with callbackHandlerID := b.handlerID } := by
    intro d b chatID nodeID
    simp only [Dialog.after, ShowM_run, Show_dialog]
  refine ⟨fun b u => callbackM_run b u d, fun id => findNodeM_run id d,
    fun text node => findButtonM_run text node, ?_, hcb d, ?_⟩
  · intro b chatID nodeID
    exact ⟨by rw [ShowM_run, Show_dialog], Show_dialog d b chatID nodeID⟩
  unfold Dialog.afterAll
  induction events generalizing d with
  | nil => simp
  | cons e rest ih =>
    simp only [List.foldl_cons]
    have hstep : (d.after e).data = d.data ∧ (d.after e).pfx = d.pfx
        ∧ (d.after e).nodePrefix = d.nodePrefix
        ∧ (d.after e).callbackPrefix = d.callbackPrefix
        ∧ (d.after e).onError = d.onError ∧ (d.after e).nodes = d.nodes
        ∧ (d.after e).inline = d.inline := by
      cases e
      · rw [hshow]
        simp
      · rw [hcb]
        simp
    obtain ⟨h1, h2, h3, h4, h5, h6, h7⟩ := ih (d.after e)
    obtain ⟨g1, g2, g3, g4, g5, g6, g7⟩ := hstep
    exact ⟨h1.trans g1, h2.trans g2, h3.trans g3, h4.trans g4, h5.trans g5, h6.trans g6,
      h7.trans g7⟩

/-- C19 (as stated, false): the dialog has a node whose ID is the navigation
sub-prefix followed by "X", and the payload made of the widget prefix, the
navigation sub-prefix and "X" does not begin with the widget prefix and the
custom-action sub-prefix; when the message of the callback query is
inaccessible, `callback` fails with a nil dereference after the
acknowledgment, renders no node and reports no node-not-found error. -/
theorem C19_counterexample :
    (∃ N ∈ hiddenDialog.nodes, N.ID = hiddenDialog.nodePrefix ++ "X".toList)
    ∧ HasPrefix (hiddenDialog.pfx ++ hiddenDialog.nodePrefix ++ "X".toList)
        (hiddenDialog.pfx ++ hiddenDialog.callbackPrefix) = false
    ∧ hiddenDialog.callback okBot
        (tapInaccessible (hiddenDialog.pfx ++ hiddenDialog.nodePrefix ++ "X".toList)) =
        { calls := [Call.AnswerCallbackQuery "q1".toList]
          failure := some Failure.nilMessage }
    ∧ ¬ (∃ c ∈ (hiddenDialog.callback okBot
          (tapInaccessible (hiddenDialog.pfx ++ hiddenDialog.nodePrefix ++ "X".toList))).calls,
        c.isRender = true) := by
  refine ⟨by decide, by decide, by decide, by decide⟩

/-- C19 (amended): on a payload that does not begin with the widget prefix
and the custom-action sub-prefix, the node ID that `callback` looks up is the
payload without one leading widget prefix, or the payload itself when it does
not begin with the widget prefix, and `callback` reports node-not-found for
that ID when the lookup fails.  So for the payload made of the widget prefix,
the navigation sub-prefix and T, the ID looked up is the navigation sub-prefix
followed by T; `callback` renders a node only if a node of the dialog has that
ID; it renders the node found, once, when a node has that ID and the update
carries its message; and it reports node-not-found for that ID when no node
has it. -/
theorem C19_navigation_lookup (d : Dialog) (b : Bot) (u : Update)
    (h : HasPrefix u.Data (d.pfx ++ d.callbackPrefix) = false) :
    (∀ r, u.Data = d.pfx ++ r → decodeNav d u.Data = r)
    ∧ (HasPrefix u.Data d.pfx = false → decodeNav d u.Data = u.Data)
    ∧ ((d.findNode (decodeNav d u.Data)).2 = false →
        d.callback b u =
          { calls := answer b u ++ [Call.onError (DialogError.nodeNotFound (decodeNav d u.Data))]
            failure := none })
    ∧ (∀ T, u.Data = d.pfx ++ d.nodePrefix ++ T →
        decodeNav d u.Data = d.nodePrefix ++ T
        ∧ ((∃ c ∈ (d.callback b u).calls, c.isRender = true)
            → ∃ N ∈ d.nodes, N.ID = d.nodePrefix ++ T)
        ∧ (∀ m : CallbackMessage, u.Message = some m →
            (∃ N ∈ d.nodes, N.ID = d.nodePrefix ++ T) →
            (d.findNode (d.nodePrefix ++ T)).1 ∈ d.nodes
            ∧ (d.findNode (d.nodePrefix ++ T)).1.ID = d.nodePrefix ++ T
            ∧ d.callback b u =
              { calls := answer b u
                  ++ ([if d.inline then
                        Call.EditMessageText m.ChatID m.ID (d.findNode (d.nodePrefix ++ T)).1.Text
                          ((d.findNode (d.nodePrefix ++ T)).1.buildKB d.pfx d.nodePrefix
                            d.callbackPrefix (d.findNode (d.nodePrefix ++ T)).1.ID)
                      else
                        Call.SendMessage m.ChatID (d.findNode (d.nodePrefix ++ T)).1.Text
                          ((d.findNode (d.nodePrefix ++ T)).1.buildKB d.pfx d.nodePrefix
                            d.callbackPrefix (d.findNode (d.nodePrefix ++ T)).1.ID)]
                    ++ (match (if d.inline then b.editErr else b.sendErr) with
                        | some e => [Call.onError (DialogError.api e)]
                        | none => []))
                failure := none })
        ∧ ((¬ ∃ N ∈ d.nodes, N.ID = d.nodePrefix ++ T) →
            d.callback b u =
              { calls := answer b u
                  ++ [Call.onError (DialogError.nodeNotFound (d.nodePrefix ++ T))]
                failure := none })) := by
  have hmiss := callback_not_found d b u h
  refine ⟨?_, fun hp => TrimPrefix_of_not u.Data d.pfx hp, hmiss, ?_⟩
  · intro r hr
    unfold decodeNav
    rw [hr, TrimPrefix_append]
  · intro T hT
    have hid : decodeNav d u.Data = d.nodePrefix ++ T := by
      rw [hT]
      exact decodeNav_emitted d T
    rw [hid] at hmiss
    refine ⟨hid, ?_, ?_, ?_⟩
    · rintro ⟨c, hc, hr⟩
      cases hf : (d.findNode (d.nodePrefix ++ T)).2 with
      | true =>
        obtain ⟨hmem, hID⟩ := findNodeIn_found (d.nodePrefix ++ T) d.nodes hf
        exact ⟨_, hmem, hID⟩
      | false =>
        exfalso
        rw [hmiss hf] at hc
        simp only [List.mem_append, List.mem_singleton] at hc
        rcases hc with hc | hc
        · rw [answer_not_render b u c hc] at hr
          cases hr
        · subst hc
          cases hr
    · intro m hm hex
      have hf : (d.findNode (d.nodePrefix ++ T)).2 = true :=
        findNodeIn_of_mem (d.nodePrefix ++ T) d.nodes hex
      obtain ⟨hmem, hID⟩ := findNodeIn_found (d.nodePrefix ++ T) d.nodes hf
      have hfind : d.findNode (decodeNav d u.Data)
          = ((d.findNode (d.nodePrefix ++ T)).1, true) := by
        rw [hid, ← hf]
      exact ⟨hmem, hID, callback_found_with_message d b u _ m h hfind hm⟩
    · intro hno
      have hf : (d.findNode (d.nodePrefix ++ T)).2 = false := by
        cases hf : (d.findNode (d.nodePrefix ++ T)).2 with
        | false => rfl
        | true =>
          obtain ⟨hmem, hID⟩ := findNodeIn_found (d.nodePrefix ++ T) d.nodes hf
          exact absurd ⟨_, hmem, hID⟩ hno
      exact hmiss hf

/-- C19 (amended), at the payload emitted for the button "Go" in the
scenario. -/
theorem C19_navigation_lookup_witness :
    decodeNav scenario (tap (wPfx ++ nPfx ++ "B".toList)).Data = nPfx ++ "B".toList
    ∧ ((¬ ∃ N ∈ scenario.nodes, N.ID = scenario.nodePrefix ++ "B".toList) →
        scenario.callback okBot (tap (wPfx ++ nPfx ++ "B".toList)) =
          { calls := answer okBot (tap (wPfx ++ nPfx ++ "B".toList))
              ++ [Call.onError (DialogError.nodeNotFound (scenario.nodePrefix ++ "B".toList))]
            failure := none }) :=
  ⟨((C19_navigation_lookup scenario okBot (tap (wPfx ++ nPfx ++ "B".toList))
      (by decide)).2.2.2 "B".toList rfl).1,
    ((C19_navigation_lookup scenario okBot (tap (wPfx ++ nPfx ++ "B".toList))
      (by decide)).2.2.2 "B".toList rfl).2.2.2⟩

end DialogUI
